import Mathlib

/-!
Verification development for `index.js` (Discord bot: Gemini Q&A and weather lookup).

The JavaScript of `index.js` is embedded as Lean functions.

* A JavaScript string is the list of its UTF-16 code units (`Str`, each code
  unit a natural number), so `.length`, `.split(" ")`, `.substring`, `+`,
  `.replace(/.../g, '')` and `.join(" ")` are list operations.  `lit` turns a
  Lean string literal (characters of the Basic Multilingual Plane) into a `Str`.
* `splitMessage` is the `for ... of` loop of the source, written as a left fold
  of the loop body over `message.split(" ")`.
* Lengths are compared in `Int`, as the source compares them against the
  number `maxLength`, which may be any integer.
* The calls a handler makes on the chat platform (`reply`, `deferReply`,
  `editReply`, `followUp`) are recorded in a trace; every awaited platform call
  may resolve or reject, and the `try`/`catch` of the handler is modelled.
* A JSON number literal is a decimal `Dec`.  A JavaScript number is a binary64
  value, given by its exact rational value, or an infinity (`JsNumber`); each
  arithmetic operation of `celsiusToFahrenheit` rounds its exact result to
  binary64 (round to nearest, ties to even, overflow to an infinity).
-/

namespace GeminiBot

/-! ## Strings -/

/-- A JavaScript string: the sequence of its UTF-16 code units. -/
abbrev Str := List Nat

/-- The `Str` of a string literal. -/
def lit (s : String) : Str := s.toList.map Char.toNat

/-- The code unit of the space character, `" "`. -/
def SPACE : Nat := 32

/-- JavaScript `s.split(" ")`: the maximal space-free pieces of `s`, in order.  The empty
string splits into one empty piece, as in JavaScript. -/
def splitSpace : Str → List Str
  | [] => [[]]
  | c :: cs =>
    if c = SPACE then [] :: splitSpace cs
    else
      match splitSpace cs with
      | [] => [[c]]
      | w :: ws => (c :: w) :: ws

/-- JavaScript `chunks.join(" ")`. -/
def joinSpace : List Str → Str
  | [] => []
  | [c] => c
  | c :: d :: cs => c ++ SPACE :: joinSpace (d :: cs)

/-- JavaScript `s.replace(/pat/g, "")` for a literal pattern `pat`: every match, found
left to right without overlap, is deleted.  `skip` counts the code units of the
current match that are still to be dropped. -/
def removeAll (pat : Str) : Str → Nat → Str
  | [], _ => []
  | _ :: cs, skip + 1 => removeAll pat cs skip
  | c :: cs, 0 =>
    if pat.isPrefixOf (c :: cs) then removeAll pat cs (pat.length - 1)
    else c :: removeAll pat cs 0

/-! ## `splitMessage` (index.js, lines 158-177) -/

/-- The state of the loop of `splitMessage`: the array `chunks` and the string
`currentChunk`. -/
structure SplitState where
  chunks : List Str
  currentChunk : Str
  deriving DecidableEq

/-- One iteration of `for (const word of words)` in `splitMessage`. -/
def splitStep (maxLength : Int) (st : SplitState) (word : Str) : SplitState :=
  if (st.currentChunk.length : Int) + (word.length : Int) + 1 ≤ maxLength then
    { st with
      currentChunk :=
        st.currentChunk ++ (if st.currentChunk.length > 0 then [SPACE] else []) ++ word }
  else
    { chunks := st.chunks ++ [st.currentChunk], currentChunk := word }

/-- The whole loop of `splitMessage`, started from a given state. -/
def splitLoop (maxLength : Int) (st : SplitState) (words : List Str) : SplitState :=
  words.foldl (splitStep maxLength) st

/-- The final `if (currentChunk.length > 0) chunks.push(currentChunk)`. -/
def splitFinish (st : SplitState) : List Str :=
  if st.currentChunk.length > 0 then st.chunks ++ [st.currentChunk] else st.chunks

/-- The function `splitMessage(message, maxLength)` of `index.js`. -/
def splitMessage (message : Str) (maxLength : Int) : List Str :=
  splitFinish (splitLoop maxLength { chunks := [], currentChunk := [] } (splitSpace message))

/-- The non-empty space-delimited tokens of a string. -/
def tokens (s : Str) : List Str :=
  (splitSpace s).filter (fun w => !w.isEmpty)

/-- The non-empty tokens of a list of chunks, read chunk by chunk in order. -/
def chunkTokens (chunks : List Str) : List Str :=
  (chunks.map tokens).flatten

/-! ## The Q&A handler (index.js, lines 75-132) -/

/-- The constant `continuationNotice`. -/
def continuationNotice : Str := lit "[... continued below]"

/-- Lines 109-116: the continuation notice is added to every chunk but the last
of `chunksLength` chunks, when the result stays within 2000 code units. -/
def addNotice (chunksLength : Nat) (i : Nat) (chunk : Str) : Str :=
  if (i : Int) < (chunksLength : Int) - 1 then
    if chunk.length + continuationNotice.length + 1 ≤ 2000 then
      chunk ++ lit " " ++ continuationNotice
    else chunk
  else chunk

/-- Lines 118-122: the last-resort truncation. -/
def truncateChunk (chunk : Str) : Str :=
  if chunk.length > 2000 then chunk.take 1997 ++ lit "..." else chunk

/-- The text passed to `interaction.followUp` for `chunks[i]`. -/
def followUpText (chunksLength : Nat) (i : Nat) (chunk : Str) : Str :=
  truncateChunk (addNotice chunksLength i chunk)

/-- A call made on the interaction object of the chat platform. -/
inductive Call where
  | reply (content : Str) (ephemeral : Bool)
  | deferReply
  | editReply (content : Str)
  | followUp (content : Str)
  deriving DecidableEq

/-- Whether a call is an `editReply`. -/
def Call.isEdit : Call → Bool
  | Call.editReply _ => true
  | _ => false

/-- Whether a call is a `followUp`. -/
def Call.isFollowUp : Call → Bool
  | Call.followUp _ => true
  | _ => false

/-- The chat platform as seen by a handler: for the `k`-th awaited platform
call (counted from 0), `none` when the call resolves and `some m` when it
rejects with an error whose message is `m`. -/
abbrev Platform := Nat → Option Str

/-- What one run of a handler did: the platform calls it made, in order, and
the message of the error it ended with, if it ended with one. -/
structure Run where
  calls : List Call
  error : Option Str
  deriving DecidableEq

/-- An awaited platform call: it is appended to the trace, and the platform
says whether it resolves. -/
def perform (platform : Platform) (calls : List Call) (c : Call) : Run :=
  { calls := calls ++ [c], error := platform calls.length }

/-- The loop of lines 106-125, from index `i` on, over the chunks not yet sent. -/
def followUpLoop (platform : Platform) (chunksLength : Nat) :
    List Str → Nat → List Call → Run
  | [], _, calls => { calls := calls, error := none }
  | chunk :: rest, i, calls =>
    let r := perform platform calls (Call.followUp (followUpText chunksLength i chunk))
    match r.error with
    | some e => { calls := r.calls, error := some e }
    | none => followUpLoop platform chunksLength rest (i + 1) r.calls

/-- The introductory message of line 95. -/
def introMessage (username prompt : Str) : Str :=
  username ++ lit " asked: \"" ++ prompt ++ lit "\""

/-- The `try` block of the Q&A handler (lines 86-128).  `service` is the outcome
of `model.generateContent(prompt)` followed by `result.response.text()`: the
response text, or the message of the error thrown. -/
def geminiTry (platform : Platform) (username prompt : Str) (service : Except Str Str)
    (calls : List Call) : Run :=
  match service with
  | Except.error e => { calls := calls, error := some e }
  | Except.ok responseText =>
    if responseText.length > 0 then
      let chunks := splitMessage responseText 1990
      let r := perform platform calls (Call.editReply (introMessage username prompt))
      match r.error with
      | some e => { calls := r.calls, error := some e }
      | none => followUpLoop platform chunks.length chunks 0 r.calls
    else
      perform platform calls (Call.editReply (lit "Gemini returned an empty response."))

/-- The Q&A branch of the `interactionCreate` handler (lines 75-132).
`prompt` is `interaction.options.getString('prompt')`, `none` for `null`. -/
def geminiHandler (platform : Platform) (username : Str) (prompt : Option Str)
    (service : Except Str Str) : Run :=
  match prompt with
  | none => perform platform [] (Call.reply (lit "Please provide a prompt.") true)
  | some p =>
    if p.length = 0 then
      perform platform [] (Call.reply (lit "Please provide a prompt.") true)
    else
      let d := perform platform [] Call.deferReply
      match d.error with
      | some e => { calls := d.calls, error := some e }
      | none =>
        let t := geminiTry platform username p service d.calls
        match t.error with
        | none => t
        | some e =>
          perform platform t.calls
            (Call.editReply (lit "An error occurred while communicating with Gemini: " ++ e))

/-- The chunks the handler obtains from the service outcome: those of
`splitMessage(responseText, 1990)`, none when the service threw. -/
def responseChunks (service : Except Str Str) : List Str :=
  match service with
  | Except.ok responseText => splitMessage responseText 1990
  | Except.error _ => []

/-- The `followUp` calls for a list of chunks, one per chunk in order. -/
def followUpCalls (chunks : List Str) : List Call :=
  chunks.enum.map (fun ic => Call.followUp (followUpText chunks.length ic.1 ic.2))

/-! ## Numbers -/

/-- The value of a JSON number literal: `mantissa * 10 ^ exp10`. -/
structure Dec where
  mantissa : Int
  exp10 : Int
  deriving DecidableEq

/-- The rational value of a decimal. -/
def Dec.toRat (d : Dec) : ℚ :=
  mkRat (d.mantissa * 10 ^ d.exp10.toNat) (10 ^ (-d.exp10).toNat)

/-- The reciprocal of the underflow threshold of binary64: a real number of
absolute value at most `2 ^ (-1075)` is rounded to zero (round to nearest, ties
to even). -/
def underflowBound : Nat := 2 ^ 1075

/-- Whether the binary64 number nearest to a decimal is zero: whether
`|mantissa * 10 ^ exp10| ≤ 2 ^ (-1075)`, written without division. -/
def Dec.isZero (d : Dec) : Bool :=
  decide (d.mantissa.natAbs * 10 ^ d.exp10.toNat * underflowBound ≤ 10 ^ (-d.exp10).toNat)

/-- A JavaScript number other than `NaN`: a binary64 value, given by its exact
rational value (the sign of zero is not kept), or an infinity. -/
inductive JsNumber where
  | finite (value : ℚ)
  | posInf
  | negInf
  deriving DecidableEq

/-- The result of `Math.round`: an integer or an infinity. -/
inductive RoundedNumber where
  | int (value : ℤ)
  | posInf
  | negInf
  deriving DecidableEq

/-- The integer nearest to a rational, a tie going to the even one. -/
def roundHalfEven (q : ℚ) : ℤ :=
  if q - ⌊q⌋ < 1 / 2 then ⌊q⌋
  else if 1 / 2 < q - ⌊q⌋ then ⌊q⌋ + 1
  else if ⌊q⌋ % 2 = 0 then ⌊q⌋
  else ⌊q⌋ + 1

/-- The exponent of the spacing of binary64 around `x`: with
`2 ^ e ≤ |x| < 2 ^ (e + 1)` the values are `2 ^ (e - 52)` apart, and below
`2 ^ (-1022)` (subnormal range) they are `2 ^ (-1074)` apart. -/
def ulpExp (x : ℚ) : ℤ := max (Int.log 2 |x|) (-1022) - 52

/-- Round to nearest, ties to even, with an unbounded exponent range. -/
def roundDouble (x : ℚ) : ℚ := roundHalfEven (x / 2 ^ ulpExp x) * 2 ^ ulpExp x

/-- The binary64 result of an operation whose exact result is `x`: the rounded
value, or an infinity when it reaches `2 ^ 1024` in absolute value. -/
def toDouble (x : ℚ) : JsNumber :=
  if 2 ^ 1024 ≤ roundDouble x then JsNumber.posInf
  else if roundDouble x ≤ -2 ^ 1024 then JsNumber.negInf
  else JsNumber.finite (roundDouble x)

/-- An operation with a positive finite constant (`x * 9`, `x / 5`, `x + 32`)
on a JavaScript number: the exact result `f x` is rounded, and an infinity
stays what it is. -/
def JsNumber.lift (f : ℚ → ℚ) : JsNumber → JsNumber
  | JsNumber.finite q => toDouble (f q)
  | JsNumber.posInf => JsNumber.posInf
  | JsNumber.negInf => JsNumber.negInf

/-- JavaScript `Math.round(x)`: the nearest integer, a tie going up; it is exact. -/
def mathRound : JsNumber → RoundedNumber
  | JsNumber.finite q => RoundedNumber.int ⌊q + 1 / 2⌋
  | JsNumber.posInf => RoundedNumber.posInf
  | JsNumber.negInf => RoundedNumber.negInf

/-- The function `celsiusToFahrenheit(celsius)` of `index.js` (lines 180-182):
`Math.round((celsius * 9 / 5) + 32)`, each operation in binary64. -/
def celsiusToFahrenheit (celsius : JsNumber) : RoundedNumber :=
  mathRound (((celsius.lift (fun x => x * 9)).lift (fun x => x / 5)).lift (fun x => x + 32))

/-- The decimal digits of a natural number. -/
def natDigits (n : Nat) : Str := (Nat.toDigits 10 n).map Char.toNat

/-- The string of an integer-valued number in a template literal (for absolute
values below `1e21`, where JavaScript prints all the digits). -/
def renderInt (z : Int) : Str :=
  if z < 0 then 45 :: natDigits z.natAbs else natDigits z.natAbs

/-- The string of a result of `Math.round` in a template literal. -/
def renderRounded : RoundedNumber → Str
  | RoundedNumber.int z => renderInt z
  | RoundedNumber.posInf => lit "Infinity"
  | RoundedNumber.negInf => lit "-Infinity"

/-- Trailing zeros of the fraction are dropped: `(m, k)` stands for `m / 10 ^ k`. -/
def stripZeros : Nat → Nat → Nat × Nat
  | m, 0 => (m, 0)
  | m, k + 1 => if m % 10 = 0 then stripZeros (m / 10) k else (m, k + 1)

/-- The string of a number in a template literal, for a number that is the
binary64 nearest to a decimal of at most 15 significant digits and of absolute
value in `[1e-6, 1e21)` or zero: JavaScript prints such a number as that
decimal, written out in full without trailing zeros. -/
def renderDec (d : Dec) : Str :=
  if d.mantissa = 0 then lit "0"
  else
    let sign : Str := if d.mantissa < 0 then [45] else []
    let m := d.mantissa.natAbs
    if 0 ≤ d.exp10 then sign ++ natDigits m ++ List.replicate d.exp10.toNat 48
    else
      let mk := stripZeros m (-d.exp10).toNat
      let ds := natDigits mk.1
      let padded := List.replicate (mk.2 + 1 - ds.length) 48 ++ ds
      if mk.2 = 0 then sign ++ ds
      else
        sign ++ padded.take (padded.length - mk.2) ++ [46] ++ padded.drop (padded.length - mk.2)

/-! ## JSON values and `JSON.parse` -/

/-- A value produced by `JSON.parse`. -/
inductive JsValue where
  | null
  | bool (b : Bool)
  | num (d : Dec)
  | str (s : Str)
  | arr (xs : List JsValue)
  | obj (members : List (Str × JsValue))

/-- JSON whitespace: space, tab, line feed, carriage return. -/
def isWs (c : Nat) : Bool := c = 32 || c = 9 || c = 10 || c = 13

/-- Leading JSON whitespace is dropped. -/
def skipWs : Str → Str
  | [] => []
  | c :: cs => if isWs c then skipWs cs else c :: cs

/-- The code units of the digits `0` to `9`. -/
def isDigit (c : Nat) : Bool := 48 ≤ c && c ≤ 57

/-- The longest prefix of digits, and what follows it. -/
def takeDigits : Str → Str × Str
  | [] => ([], [])
  | c :: cs =>
    if isDigit c then
      let r := takeDigits cs
      (c :: r.1, r.2)
    else ([], c :: cs)

/-- The number written by a sequence of decimal digits. -/
def digitsVal (ds : Str) : Nat := ds.foldl (fun n d => 10 * n + (d - 48)) 0

/-- The value of a hexadecimal digit. -/
def hexVal (c : Nat) : Option Nat :=
  if 48 ≤ c ∧ c ≤ 57 then some (c - 48)
  else if 97 ≤ c ∧ c ≤ 102 then some (c - 87)
  else if 65 ≤ c ∧ c ≤ 70 then some (c - 55)
  else none

/-- The code unit of a one-letter escape of a JSON string: quote, backslash,
slash, `b`, `f`, `n`, `r`, `t`. -/
def simpleEscape (c : Nat) : Option Nat :=
  if c = 34 then some 34
  else if c = 92 then some 92
  else if c = 47 then some 47
  else if c = 98 then some 8
  else if c = 102 then some 12
  else if c = 110 then some 10
  else if c = 114 then some 13
  else if c = 116 then some 9
  else none

/-- The body of a JSON string, after the opening quote (code unit 34): the
unescaped content and the text after the closing quote.  Control characters
must be escaped; `\uXXXX` gives one code unit. -/
def parseStringBody : Nat → Str → Str → Option (Str × Str)
  | 0, _, _ => none
  | _ + 1, [], _ => none
  | fuel + 1, c :: cs, acc =>
    if c = 34 then some (acc, cs)
    else if c = 92 then
      match cs with
      | [] => none
      | e :: cs1 =>
        if e = 117 then
          match cs1 with
          | h1 :: h2 :: h3 :: h4 :: cs2 =>
            match hexVal h1, hexVal h2, hexVal h3, hexVal h4 with
            | some a, some b, some c3, some d =>
              parseStringBody fuel cs2 (acc ++ [((a * 16 + b) * 16 + c3) * 16 + d])
            | _, _, _, _ => none
          | _ => none
        else
          match simpleEscape e with
          | some v => parseStringBody fuel cs1 (acc ++ [v])
          | none => none
    else if c < 32 then none
    else parseStringBody fuel cs (acc ++ [c])

/-- A JSON number: optional minus, integer part without leading zero, optional
fraction, optional exponent. -/
def parseNumber (s : Str) : Option (Dec × Str) :=
  let neg : Bool := s.head? = some 45
  let s1 := if neg then s.tail else s
  let ip := takeDigits s1
  if ip.1 = [] then none
  else if 1 < ip.1.length ∧ ip.1.head? = some 48 then none
  else
    let fracPart : Option (Str × Str) :=
      match ip.2 with
      | 46 :: r =>
        let fd := takeDigits r
        if fd.1 = [] then none else some fd
      | _ => some ([], ip.2)
    match fracPart with
    | none => none
    | some (fd, s3) =>
      let expPart : Option (Int × Str) :=
        match s3 with
        | e :: r =>
          if e = 101 ∨ e = 69 then
            let negE : Bool := r.head? = some 45
            let r1 := if r.head? = some 45 ∨ r.head? = some 43 then r.tail else r
            let ed := takeDigits r1
            if ed.1 = [] then none
            else some (if negE then - (digitsVal ed.1 : Int) else (digitsVal ed.1 : Int), ed.2)
          else some (0, s3)
        | [] => some (0, s3)
      match expPart with
      | none => none
      | some (ex, s4) =>
        let m : Int := digitsVal (ip.1 ++ fd)
        some ({ mantissa := if neg then -m else m, exp10 := ex - fd.length }, s4)

/-- The text after a given prefix, if it is there. -/
def dropLiteral (pre : Str) (s : Str) : Option Str :=
  if pre.isPrefixOf s then some (s.drop pre.length) else none

mutual
/-- A JSON value, with the text that follows it. -/
def parseValue : Nat → Str → Option (JsValue × Str)
  | 0, _ => none
  | fuel + 1, s =>
    match skipWs s with
    | [] => none
    | c :: rest =>
      if c = 123 then
        match skipWs rest with
        | 125 :: rest1 => some (JsValue.obj [], rest1)
        | _ => parseMembers fuel rest []
      else if c = 91 then
        match skipWs rest with
        | 93 :: rest1 => some (JsValue.arr [], rest1)
        | _ => parseElements fuel rest []
      else if c = 34 then
        match parseStringBody (rest.length + 1) rest [] with
        | some (str, rest1) => some (JsValue.str str, rest1)
        | none => none
      else if c = 116 then
        (dropLiteral (lit "rue") rest).map (fun r => (JsValue.bool true, r))
      else if c = 102 then
        (dropLiteral (lit "alse") rest).map (fun r => (JsValue.bool false, r))
      else if c = 110 then
        (dropLiteral (lit "ull") rest).map (fun r => (JsValue.null, r))
      else
        match parseNumber (c :: rest) with
        | some (d, rest1) => some (JsValue.num d, rest1)
        | none => none
/-- The elements of a JSON array after the first bracket, up to the closing one. -/
def parseElements : Nat → Str → List JsValue → Option (JsValue × Str)
  | 0, _, _ => none
  | fuel + 1, s, acc =>
    match parseValue fuel s with
    | none => none
    | some (v, rest) =>
      match skipWs rest with
      | 44 :: rest1 => parseElements fuel rest1 (acc ++ [v])
      | 93 :: rest1 => some (JsValue.arr (acc ++ [v]), rest1)
      | _ => none
/-- The members of a JSON object after the opening brace, up to the closing one. -/
def parseMembers : Nat → Str → List (Str × JsValue) → Option (JsValue × Str)
  | 0, _, _ => none
  | fuel + 1, s, acc =>
    match skipWs s with
    | 34 :: rest =>
      match parseStringBody (rest.length + 1) rest [] with
      | none => none
      | some (key, rest1) =>
        match skipWs rest1 with
        | 58 :: rest2 =>
          match parseValue fuel rest2 with
          | none => none
          | some (v, rest3) =>
            match skipWs rest3 with
            | 44 :: rest4 => parseMembers fuel rest4 (acc ++ [(key, v)])
            | 125 :: rest4 => some (JsValue.obj (acc ++ [(key, v)]), rest4)
            | _ => none
        | _ => none
    | _ => none
end

/-- JavaScript `JSON.parse(text)`: the value, or `none` when `JSON.parse` throws a
`SyntaxError`.  The fuel, `2 * text.length + 2`, is more than the recursion
uses: a call of `parseValue` consumes at least one code unit, and so does each
round of `parseElements` and `parseMembers`. -/
def jsonParse (text : Str) : Option JsValue :=
  match parseValue (2 * text.length + 2) text with
  | some (v, rest) => if skipWs rest = [] then some v else none
  | none => none

/-! ## The weather lookup (index.js, lines 184-240) -/

/-- Lines 195-197: both `replace` calls that strip the code fence. -/
def stripFences (text : Str) : Str :=
  removeAll (lit "```") (removeAll (lit "```json\n") text 0) 0

/-- The own property `key` of an object built by `JSON.parse`: the last member
with that key. -/
def lookupLast (key : Str) : List (Str × JsValue) → Option JsValue
  | [] => none
  | (k, v) :: rest =>
    match lookupLast key rest with
    | some w => some w
    | none => if k = key then some v else none

/-- The property read `v.key` for the keys `latitude` and `longitude`: the outer
`none` is the `TypeError` thrown on `null`, an inner `none` is `undefined`
(values other than objects have no such property). -/
def getProp (v : JsValue) (key : Str) : Option (Option JsValue) :=
  match v with
  | JsValue.null => none
  | JsValue.obj members => some (lookupLast key members)
  | _ => some none

/-- JavaScript truthiness of a value that may be `undefined` (`none`). -/
def truthy : Option JsValue → Bool
  | none => false
  | some JsValue.null => false
  | some (JsValue.bool b) => b
  | some (JsValue.num d) => !d.isZero
  | some (JsValue.str s) => !s.isEmpty
  | some (JsValue.arr _) => true
  | some (JsValue.obj _) => true

/-- Whether a value that may be `undefined` is a number. -/
def isNumber : Option JsValue → Bool
  | some (JsValue.num _) => true
  | _ => false

/-- The body of the inner `try` (lines 200-205): `none` when it throws, by
`JSON.parse`, by a property read on `null`, or by the check of line 203. -/
def locationTry (text : Str) : Option JsValue :=
  match jsonParse text with
  | none => none
  | some locationData =>
    match getProp locationData (lit "latitude") with
    | none => none
    | some latitude =>
      if !truthy latitude then none
      else
        match getProp locationData (lit "longitude") with
        | none => none
        | some longitude => if !truthy longitude then none else some locationData

/-- The message of the error thrown by the inner `catch` (line 208). -/
def locationError : Str :=
  lit "Failed to get location data from Gemini. Please make sure it has the correct schema"

/-- Lines 193-211: from the response text of the language model to the
destructured `latitude` and `longitude`, or the error of line 208. -/
def geocodeStage (responseText : Str) : Except Str (Option JsValue × Option JsValue) :=
  match locationTry (stripFences responseText) with
  | none => Except.error locationError
  | some locationData =>
    match getProp locationData (lit "latitude"), getProp locationData (lit "longitude") with
    | some latitude, some longitude => Except.ok (latitude, longitude)
    | _, _ => Except.error locationError

/-- An entry of `current.weather`. -/
structure Condition where
  description : Str
  deriving DecidableEq

/-- The `current` section of the weather document. -/
structure Current where
  temp : Dec
  weather : List Condition
  humidity : Dec
  wind_speed : Dec
  deriving DecidableEq

/-- The document returned by the weather service. -/
structure WeatherDoc where
  current : Option Current
  deriving DecidableEq

/-- A request to an external service made by `getWeatherWithGemini`: the prompt
sent to the language model, or the coordinates of the weather request (the
rest of the URL is fixed). -/
inductive Request where
  | generateContent (prompt : Str)
  | weatherGet (latitude longitude : Option JsValue)

/-- Whether a request is the weather request. -/
def Request.isWeather : Request → Bool
  | Request.weatherGet _ _ => true
  | _ => false

/-- An optional string in a template literal: `null` prints as `null`. -/
def renderOpt : Option Str → Str
  | none => lit "null"
  | some s => s

/-- The prompt of line 190. -/
def locationPrompt (city : Str) (state country : Option Str) : Str :=
  lit "What is the latitude and longitude for " ++ city ++ lit " " ++ renderOpt state ++
    lit " " ++ renderOpt country ++
    lit "? Provide the answer in JSON format as \x7b\"latitude\": number, \"longitude\": number\x7d"

/-- The part `${x ? ", " + x : ""}` of the template: nothing for `null` and for
the empty string. -/
def optPart : Option Str → Str
  | none => []
  | some s => if s.length > 0 then lit ", " ++ s else []

/-- The template of lines 230-234. -/
def weatherText (city : Str) (state country : Option Str)
    (temperatureFahrenheit : RoundedNumber) (description : Str) (humidity windSpeed : Dec) :
    Str :=
  lit "Current weather in " ++ city ++ optPart state ++ optPart country ++
    lit ":\nTemperature: " ++ renderRounded temperatureFahrenheit ++
    lit "Â°F\nDescription: " ++ description ++
    lit "\nHumidity: " ++ renderDec humidity ++
    lit "%\nWind Speed: " ++ renderDec windSpeed ++ lit " m/s"

/-- Step 3 (lines 219-234): the summary, or the message of the error thrown. -/
def formatWeather (city : Str) (state country : Option Str) (weatherData : Option WeatherDoc) :
    Except Str Str :=
  match weatherData with
  | none => Except.error (lit "Could not retrieve weather data from OpenWeatherMap.")
  | some doc =>
    match doc.current with
    | none => Except.error (lit "Could not retrieve weather data from OpenWeatherMap.")
    | some current =>
      let temperatureFahrenheit := celsiusToFahrenheit (toDouble current.temp.toRat)
      match current.weather with
      | [] => Except.error (lit "Cannot read properties of undefined (reading \x27description\x27)")
      | first :: _ =>
        Except.ok (weatherText city state country temperatureFahrenheit first.description
          current.humidity current.wind_speed)

/-- The outer `catch` (lines 236-239). -/
def wrapError (message : Str) : Str :=
  lit "Failed to get weather information: " ++ message

/-- What one call of `getWeatherWithGemini` did: the requests it made, in order,
and the summary it returned or the message of the error it threw. -/
structure WeatherRun where
  requests : List Request
  result : Except Str Str

/-- The function `getWeatherWithGemini(city, state, country, ...)` of `index.js`.  `gemini`
is the language model (the response text for a prompt, or the message of the
error thrown) and `weather` the weather service (the `data` of the response to
the request for given coordinates, `none` when absent, or the message of the
error thrown). -/
def getWeatherWithGemini (city : Str) (state country : Option Str)
    (gemini : Str → Except Str Str)
    (weather : Option JsValue → Option JsValue → Except Str (Option WeatherDoc)) : WeatherRun :=
  let prompt := locationPrompt city state country
  match gemini prompt with
  | Except.error e =>
    { requests := [Request.generateContent prompt], result := Except.error (wrapError e) }
  | Except.ok responseText =>
    match geocodeStage responseText with
    | Except.error e =>
      { requests := [Request.generateContent prompt], result := Except.error (wrapError e) }
    | Except.ok (latitude, longitude) =>
      let requests := [Request.generateContent prompt, Request.weatherGet latitude longitude]
      match weather latitude longitude with
      | Except.error e => { requests := requests, result := Except.error (wrapError e) }
      | Except.ok weatherData =>
        match formatWeather city state country weatherData with
        | Except.error e => { requests := requests, result := Except.error (wrapError e) }
        | Except.ok text => { requests := requests, result := Except.ok text }

/-! ## Predicates used in the statements -/

/-- The bound kept by the loop: a chunk is within the limit, or it is a
word of the message that is itself over the limit. -/
def ChunkOk (n : Int) (words : List Str) (c : Str) : Prop :=
  (c.length : Int) ≤ n ∨ (c ∈ words ∧ n < (c.length : Int))

/-- What C8 says of a stripped text: it is the payload `p` with only JSON
whitespace before and after it. -/
def WsWrapped (p s : Str) : Prop :=
  ∃ a b : Str, (∀ c ∈ a, isWs c = true) ∧ (∀ c ∈ b, isWs c = true) ∧ s = a ++ p ++ b

/-- Whether the property `key` of a parsed value can be read and is truthy. -/
def hasTruthy (v : JsValue) (key : Str) : Bool :=
  match getProp v key with
  | some x => truthy x
  | none => false

/-! ## Numbers -/

/-- The test `Dec.isZero` is the comparison of the exact value with
`2 ^ (-1075)`. -/
theorem Dec.isZero_iff (d : Dec) : d.isZero = true ↔ |d.toRat| ≤ 1 / (underflowBound : ℚ) := by
  unfold Dec.isZero Dec.toRat
  rw [decide_eq_true_iff, Rat.mkRat_eq_div]
  have hb : (0 : ℚ) < (10 : ℚ) ^ (-d.exp10).toNat := by positivity
  have ha : (0 : ℚ) < (10 : ℚ) ^ d.exp10.toNat := by positivity
  have h2 : (0 : ℚ) < (underflowBound : ℚ) := by
    have : 0 < underflowBound := by unfold underflowBound; positivity
    exact_mod_cast this
  push_cast
  rw [abs_div, abs_mul, abs_of_pos hb, abs_of_pos ha, div_le_div_iff₀ hb h2, one_mul]
  have hm : |(d.mantissa : ℚ)| = ((d.mantissa.natAbs : ℕ) : ℚ) := by
    rw [Nat.cast_natAbs, Int.cast_abs]
  rw [hm]
  constructor
  · intro h
    have : ((d.mantissa.natAbs * 10 ^ d.exp10.toNat * underflowBound : ℕ) : ℚ) ≤
        ((10 ^ (-d.exp10).toNat : ℕ) : ℚ) := by exact_mod_cast h
    push_cast at this
    exact this
  · intro h
    have : ((d.mantissa.natAbs * 10 ^ d.exp10.toNat * underflowBound : ℕ) : ℚ) ≤
        ((10 ^ (-d.exp10).toNat : ℕ) : ℚ) := by
      push_cast
      exact h
    exact_mod_cast this


theorem underflowBound_gt : 10 ^ 250 < underflowBound := by
  unfold underflowBound; norm_num

theorem Dec.isZero_eq_false (d : Dec) (hm : d.mantissa ≠ 0) (he : -250 ≤ d.exp10) :
    d.isZero = false := by
  unfold Dec.isZero
  rw [decide_eq_false_iff_not, not_le]
  have hb : (-d.exp10).toNat ≤ 250 := by omega
  have h1 : 10 ^ (-d.exp10).toNat ≤ 10 ^ 250 := Nat.pow_le_pow_right (by decide) hb
  have h2 : 1 ≤ d.mantissa.natAbs * 10 ^ d.exp10.toNat :=
    Nat.mul_pos (Int.natAbs_pos.mpr hm) (Nat.pow_pos (by decide))
  calc 10 ^ (-d.exp10).toNat ≤ 10 ^ 250 := h1
    _ < underflowBound := underflowBound_gt
    _ = 1 * underflowBound := (Nat.one_mul _).symm
    _ ≤ d.mantissa.natAbs * 10 ^ d.exp10.toNat * underflowBound := Nat.mul_le_mul_right _ h2

/-! ## Binary64 rounding and `celsiusToFahrenheit` -/

theorem roundHalfEven_sub_le (q : ℚ) : |((roundHalfEven q : ℤ) : ℚ) - q| ≤ 1 / 2 := by
  have h1 : ((⌊q⌋ : ℤ) : ℚ) ≤ q := Int.floor_le q
  have h2 : q < ((⌊q⌋ : ℤ) : ℚ) + 1 := Int.lt_floor_add_one q
  unfold roundHalfEven
  rw [abs_le]
  split_ifs with ha hb hc
  · constructor <;> linarith
  · push_cast; constructor <;> linarith
  · constructor <;> linarith
  · push_cast; constructor <;> linarith

theorem roundHalfEven_eq_of_near (q : ℚ) (f : ℤ) (h : |(f : ℚ) - q| < 1 / 2) :
    roundHalfEven q = f := by
  have h1 := roundHalfEven_sub_le q
  rw [abs_le] at h1
  rw [abs_lt] at h
  have hlt : ((roundHalfEven q : ℤ) : ℚ) - (f : ℚ) < 1 := by linarith
  have hgt : -1 < ((roundHalfEven q : ℤ) : ℚ) - (f : ℚ) := by linarith
  have hlt2 : roundHalfEven q - f < 1 := by exact_mod_cast hlt
  have hgt2 : -1 < roundHalfEven q - f := by exact_mod_cast hgt
  omega

theorem roundHalfEven_intCast (n : ℤ) : roundHalfEven (n : ℚ) = n :=
  roundHalfEven_eq_of_near _ n (by simp)

theorem two_zpow_pos (e : ℤ) : (0 : ℚ) < 2 ^ e := zpow_pos (by norm_num) e

theorem roundDouble_sub_le (x : ℚ) : |roundDouble x - x| ≤ 2 ^ ulpExp x / 2 := by
  have hp := two_zpow_pos (ulpExp x)
  have h := roundHalfEven_sub_le (x / 2 ^ ulpExp x)
  have e : roundDouble x - x =
      (((roundHalfEven (x / 2 ^ ulpExp x) : ℤ) : ℚ) - x / 2 ^ ulpExp x) * 2 ^ ulpExp x := by
    unfold roundDouble
    field_simp
  rw [e, abs_mul, abs_of_pos hp]
  calc |((roundHalfEven (x / 2 ^ ulpExp x) : ℤ) : ℚ) - x / 2 ^ ulpExp x| * 2 ^ ulpExp x
      ≤ 1 / 2 * 2 ^ ulpExp x := mul_le_mul_of_nonneg_right h hp.le
    _ = 2 ^ ulpExp x / 2 := by ring

theorem log_abs_lt (x : ℚ) (k : ℤ) (hk : 1 ≤ k) (hx : |x| < 2 ^ k) : Int.log 2 |x| < k := by
  rcases eq_or_lt_of_le (abs_nonneg x) with h0 | hpos
  · rw [← h0, Int.log_zero_right]; omega
  · rw [← Int.lt_zpow_iff_log_lt (by norm_num) hpos]
    exact_mod_cast hx

theorem ulpExp_le (x : ℚ) (k : ℤ) (hk : 1 ≤ k) (hx : |x| < 2 ^ k) : ulpExp x ≤ k - 53 := by
  have := log_abs_lt x k hk hx
  unfold ulpExp
  have : max (Int.log 2 |x|) (-1022) ≤ k - 1 := max_le (by omega) (by omega)
  omega

theorem ulpExp_eq (x : ℚ) (k : ℤ) (hk : -1022 ≤ k) (hlo : 2 ^ k ≤ |x|) (hhi : |x| < 2 ^ (k + 1)) :
    ulpExp x = k - 52 := by
  have hpos : 0 < |x| := lt_of_lt_of_le (two_zpow_pos k) hlo
  have h1 : k ≤ Int.log 2 |x| := by
    rw [← Int.zpow_le_iff_le_log (by norm_num) hpos]
    exact_mod_cast hlo
  have h2 : Int.log 2 |x| < k + 1 := by
    rw [← Int.lt_zpow_iff_log_lt (by norm_num) hpos]
    exact_mod_cast hhi
  unfold ulpExp
  have : Int.log 2 |x| = k := by omega
  rw [this, max_eq_left hk]

theorem roundDouble_eq_of (x : ℚ) (k : ℤ) (f : ℤ) (hk : -1022 ≤ k) (hlo : 2 ^ k ≤ |x|)
    (hhi : |x| < 2 ^ (k + 1)) (hf : |(f : ℚ) - x / 2 ^ (k - 52)| < 1 / 2) :
    roundDouble x = f * 2 ^ (k - 52) := by
  unfold roundDouble
  rw [ulpExp_eq x k hk hlo hhi, roundHalfEven_eq_of_near _ f hf]

theorem roundDouble_intCast (n : ℤ) (h : |n| < 2 ^ 53) : roundDouble (n : ℚ) = n := by
  have hx : |(n : ℚ)| < 2 ^ (53 : ℤ) := by
    have : ((|n| : ℤ) : ℚ) < ((2 ^ 53 : ℤ) : ℚ) := by exact_mod_cast h
    have e : (2 : ℚ) ^ (53 : ℤ) = 9007199254740992 := by norm_num
    rw [e]
    simpa using this
  have he : ulpExp (n : ℚ) ≤ 0 := by
    have := ulpExp_le (n : ℚ) 53 (by norm_num) hx
    omega
  obtain ⟨m, hm⟩ : ∃ m : ℕ, ulpExp (n : ℚ) = -(m : ℤ) := ⟨(-ulpExp (n : ℚ)).toNat, by omega⟩
  unfold roundDouble
  rw [hm]
  have e : (n : ℚ) / 2 ^ (-(m : ℤ)) = ((n * 2 ^ m : ℤ) : ℚ) := by
    rw [zpow_neg, zpow_natCast]; push_cast; field_simp
  rw [e, roundHalfEven_intCast]
  rw [zpow_neg, zpow_natCast]; push_cast; field_simp

theorem toDouble_of_lt (x : ℚ) (h : |roundDouble x| < 2 ^ 1024) :
    toDouble x = JsNumber.finite (roundDouble x) := by
  rw [abs_lt] at h
  unfold toDouble
  rw [if_neg (by linarith [h.2]), if_neg (by linarith [h.1])]

theorem toDouble_intCast (n : ℤ) (h : |n| < 2 ^ 53) : toDouble (n : ℚ) = JsNumber.finite (n : ℚ) := by
  have hr := roundDouble_intCast n h
  have hx : |(n : ℚ)| < 9007199254740992 := by
    have : ((|n| : ℤ) : ℚ) < ((2 ^ 53 : ℤ) : ℚ) := by exact_mod_cast h
    simpa using this
  rw [toDouble_of_lt _ (by rw [hr]; exact lt_trans hx (by norm_num)), hr]

/-- A number less than `1/10` away from `9c/5 + 32`, for an integer `c`, is
rounded by `Math.round` to the integer nearest to `9c/5 + 32`. -/
theorem floor_of_near (c : ℤ) (s : ℚ) (hs : |s - (9 * (c : ℚ) / 5 + 32)| < 1 / 10) :
    ⌊s + 1 / 2⌋ = (18 * c + 325) / 10 := by
  rw [abs_lt] at hs
  have hdiv : (18 * c + 325) = 10 * ((18 * c + 325) / 10) + (18 * c + 325) % 10 :=
    (Int.ediv_add_emod _ _).symm
  have hr1 : 1 ≤ (18 * c + 325) % 10 := by omega
  have hr9 : (18 * c + 325) % 10 ≤ 9 := by omega
  have hq : (18 * (c : ℚ) + 325) =
      10 * (((18 * c + 325) / 10 : ℤ) : ℚ) + (((18 * c + 325) % 10 : ℤ) : ℚ) := by
    exact_mod_cast hdiv
  have h1 : (1 : ℚ) ≤ (((18 * c + 325) % 10 : ℤ) : ℚ) := by exact_mod_cast hr1
  have h9 : (((18 * c + 325) % 10 : ℤ) : ℚ) ≤ 9 := by exact_mod_cast hr9
  rw [Int.floor_eq_iff]
  constructor
  · linarith
  · linarith

/-- For an integer `c` of absolute value at most `10 ^ 14` the binary64
computation returns the integer nearest to `9c/5 + 32`. -/
theorem celsiusToFahrenheit_int (c : ℤ) (hc : |c| ≤ 10 ^ 14) :
    celsiusToFahrenheit (toDouble (c : ℚ)) = RoundedNumber.int ((18 * c + 325) / 10) := by
  have hc' := abs_le.mp hc
  have hcq : |(c : ℚ)| ≤ 10 ^ 14 := by
    have : ((|c| : ℤ) : ℚ) ≤ ((10 ^ 14 : ℤ) : ℚ) := by exact_mod_cast hc
    simpa using this
  have hcq' := abs_le.mp hcq
  -- the argument and the product are exact
  have h0 : toDouble (c : ℚ) = JsNumber.finite (c : ℚ) :=
    toDouble_intCast c (by rw [abs_lt]; constructor <;> omega)
  have h1 : toDouble ((c : ℚ) * 9) = JsNumber.finite ((c : ℚ) * 9) := by
    have := toDouble_intCast (c * 9) (by rw [abs_lt]; constructor <;> omega)
    push_cast at this
    exact this
  -- the quotient
  have hx2 : |(c : ℚ) * 9 / 5| < 2 ^ (48 : ℤ) := by
    rw [abs_lt]; constructor <;> norm_num <;> linarith
  have he2 : ulpExp ((c : ℚ) * 9 / 5) ≤ -5 := by
    have := ulpExp_le _ 48 (by norm_num) hx2; omega
  have hd := roundDouble_sub_le ((c : ℚ) * 9 / 5)
  have hp2 : (2 : ℚ) ^ ulpExp ((c : ℚ) * 9 / 5) ≤ 1 / 32 := by
    calc (2 : ℚ) ^ ulpExp ((c : ℚ) * 9 / 5) ≤ 2 ^ (-5 : ℤ) :=
          zpow_le_zpow_right₀ (by norm_num) he2
      _ = 1 / 32 := by norm_num
  have hd' : |roundDouble ((c : ℚ) * 9 / 5) - (c : ℚ) * 9 / 5| ≤ 1 / 64 := by linarith
  have hdb := abs_le.mp hd'
  have hx2' := abs_lt.mp hx2
  have h2 : toDouble ((c : ℚ) * 9 / 5) = JsNumber.finite (roundDouble ((c : ℚ) * 9 / 5)) := by
    apply toDouble_of_lt
    rw [abs_lt]
    constructor <;> norm_num at hx2' ⊢ <;> linarith
  -- the sum
  have hx3 : |roundDouble ((c : ℚ) * 9 / 5) + 32| < 2 ^ (48 : ℤ) := by
    rw [abs_lt]; constructor <;> norm_num <;> linarith
  have he3 : ulpExp (roundDouble ((c : ℚ) * 9 / 5) + 32) ≤ -5 := by
    have := ulpExp_le _ 48 (by norm_num) hx3; omega
  have hs := roundDouble_sub_le (roundDouble ((c : ℚ) * 9 / 5) + 32)
  have hp3 : (2 : ℚ) ^ ulpExp (roundDouble ((c : ℚ) * 9 / 5) + 32) ≤ 1 / 32 := by
    calc (2 : ℚ) ^ ulpExp (roundDouble ((c : ℚ) * 9 / 5) + 32) ≤ 2 ^ (-5 : ℤ) :=
          zpow_le_zpow_right₀ (by norm_num) he3
      _ = 1 / 32 := by norm_num
  have hs' : |roundDouble (roundDouble ((c : ℚ) * 9 / 5) + 32) -
      (roundDouble ((c : ℚ) * 9 / 5) + 32)| ≤ 1 / 64 := by linarith
  have hsb := abs_le.mp hs'
  have hx3' := abs_lt.mp hx3
  have h3 : toDouble (roundDouble ((c : ℚ) * 9 / 5) + 32) =
      JsNumber.finite (roundDouble (roundDouble ((c : ℚ) * 9 / 5) + 32)) := by
    apply toDouble_of_lt
    rw [abs_lt]
    constructor <;> norm_num at hx3' ⊢ <;> linarith
  have hnear : |roundDouble (roundDouble ((c : ℚ) * 9 / 5) + 32) - (9 * (c : ℚ) / 5 + 32)|
      < 1 / 10 := by
    rw [abs_lt]; constructor <;> linarith
  simp only [celsiusToFahrenheit, h0, JsNumber.lift, h1, h2, h3, mathRound]
  rw [floor_of_near c _ hnear]

theorem toDouble_c0 :
    toDouble ((1000000000000003 : ℤ) : ℚ) = JsNumber.finite 1000000000000003 := by
  have := toDouble_intCast 1000000000000003 (by norm_num)
  simpa using this

theorem toDouble_c0_times9 :
    toDouble ((1000000000000003 : ℚ) * 9) = JsNumber.finite 9000000000000027 := by
  have := toDouble_intCast 9000000000000027 (by norm_num)
  norm_num at this ⊢
  exact this

theorem roundDouble_c0_quotient :
    roundDouble ((9000000000000027 : ℚ) / 5) = 3600000000000011 / 2 := by
  rw [roundDouble_eq_of _ 50 7200000000000022 (by norm_num) (by norm_num [le_abs])
    (by norm_num [abs_lt]) (by norm_num [abs_lt])]
  norm_num

theorem toDouble_c0_quotient :
    toDouble ((9000000000000027 : ℚ) / 5) = JsNumber.finite (3600000000000011 / 2) := by
  rw [toDouble_of_lt _ (by rw [roundDouble_c0_quotient]; norm_num [abs_lt]),
    roundDouble_c0_quotient]

theorem roundDouble_c0_sum :
    roundDouble ((3600000000000011 : ℚ) / 2 + 32) = 3600000000000075 / 2 := by
  rw [roundDouble_eq_of _ 50 7200000000000150 (by norm_num) (by norm_num [le_abs])
    (by norm_num [abs_lt]) (by norm_num [abs_lt])]
  norm_num

theorem toDouble_c0_sum :
    toDouble ((3600000000000011 : ℚ) / 2 + 32) = JsNumber.finite (3600000000000075 / 2) := by
  rw [toDouble_of_lt _ (by rw [roundDouble_c0_sum]; norm_num [abs_lt]), roundDouble_c0_sum]

theorem floor_c0 : ⌊(3600000000000075 : ℚ) / 2 + 1 / 2⌋ = 1800000000000038 := by
  norm_num

theorem lift_c0_times9 : (JsNumber.finite 1000000000000003).lift (fun x => x * 9) =
    JsNumber.finite 9000000000000027 := by
  simp only [JsNumber.lift]
  exact toDouble_c0_times9

theorem lift_c0_quotient : (JsNumber.finite 9000000000000027).lift (fun x => x / 5) =
    JsNumber.finite (3600000000000011 / 2) := by
  simp only [JsNumber.lift]
  exact toDouble_c0_quotient

theorem lift_c0_sum : (JsNumber.finite (3600000000000011 / 2)).lift (fun x => x + 32) =
    JsNumber.finite (3600000000000075 / 2) := by
  simp only [JsNumber.lift]
  exact toDouble_c0_sum

theorem mathRound_c0 : mathRound (JsNumber.finite (3600000000000075 / 2)) = RoundedNumber.int 1800000000000038 := by
  simp only [mathRound]
  rw [floor_c0]

theorem celsiusToFahrenheit_c0 : celsiusToFahrenheit (toDouble ((1000000000000003 : ℤ) : ℚ)) =
      RoundedNumber.int 1800000000000038 := by
  unfold celsiusToFahrenheit
  rw [toDouble_c0, lift_c0_times9, lift_c0_quotient, lift_c0_sum, mathRound_c0]

/-! ## Fence stripping and the geocode stage -/

theorem removeAll_append_of_not_mem (h : Nat) (pat a b : Str) (ha : h ∉ a) :
    removeAll (h :: pat) (a ++ b) 0 = a ++ removeAll (h :: pat) b 0 := by
  induction a with
  | nil => rfl
  | cons c cs ih =>
    simp only [List.mem_cons, not_or] at ha
    have hc : (h == c) = false := by simpa using ha.1
    simp [removeAll, List.isPrefixOf, hc, ih ha.2]

theorem fenceJson_eq : lit "```json\n" = [96, 96, 96, 106, 115, 111, 110, 10] := by decide

theorem fence_eq : lit "```" = [96, 96, 96] := by decide

theorem newline_eq : lit "\n" = [10] := by decide

theorem stripFences_json (p : Str) (hp : 96 ∉ p) :
    stripFences (lit "```json\n" ++ p ++ lit "\n```") = p ++ lit "\n" := by
  have e : lit "\n```" = [10] ++ [96, 96, 96] := by decide
  have h1 : removeAll (lit "```json\n") (lit "```json\n" ++ p ++ lit "\n```") 0 =
      (p ++ [10]) ++ [96, 96, 96] := by
    rw [fenceJson_eq, e]
    simp only [List.cons_append, List.nil_append, removeAll, List.isPrefixOf, beq_self_eq_true,
      Bool.true_and, if_true, List.length_cons, List.length_nil]
    have := removeAll_append_of_not_mem 96 [96, 96, 106, 115, 111, 110, 10] (p ++ [10])
      [96, 96, 96] (by simp [hp])
    simp only [List.append_assoc, List.cons_append, List.nil_append] at this
    simp [this, removeAll, List.isPrefixOf]
  unfold stripFences
  rw [h1, fence_eq, removeAll_append_of_not_mem 96 [96, 96] (p ++ [10]) [96, 96, 96]
    (by simp [hp]), newline_eq]
  simp [removeAll, List.isPrefixOf]

theorem stripFences_ws_tag (t p : Str) (ht : ∀ c ∈ t, isWs c = true) (hp : 96 ∉ p) :
    stripFences (lit "```" ++ t ++ lit "\n" ++ p ++ lit "\n```") = t ++ lit "\n" ++ p ++ lit "\n" := by
  have e : lit "\n```" = [10] ++ [96, 96, 96] := by decide
  have ht96 : 96 ∉ t := fun h => by have := ht 96 h; simp [isWs] at this
  have hbody : 96 ∉ t ++ [10] ++ p ++ [10] := by simp [ht96, hp]
  have hhead : ∀ x ∈ (t ++ [10] ++ p ++ [10]).head?, x ≠ 96 ∧ x ≠ 106 := by
    intro x hx
    cases t with
    | nil => simp at hx; subst hx; decide
    | cons y ys =>
      simp at hx; subst hx
      have := ht y (by simp)
      constructor <;> (intro h; subst h; simp [isWs] at this)
  have h1 : removeAll (lit "```json\n") (lit "```" ++ t ++ lit "\n" ++ p ++ lit "\n```") 0 =
      [96, 96, 96] ++ (t ++ [10] ++ p ++ [10]) ++ [96, 96, 96] := by
    rw [fenceJson_eq, fence_eq, newline_eq, e]
    have hrest := removeAll_append_of_not_mem 96 [96, 96, 106, 115, 111, 110, 10]
      (t ++ [10] ++ p ++ [10]) [96, 96, 96] hbody
    have hassoc : [96, 96, 96] ++ t ++ [10] ++ p ++ ([10] ++ [96, 96, 96]) =
        96 :: 96 :: 96 :: ((t ++ [10] ++ p ++ [10]) ++ [96, 96, 96]) := by simp
    rw [hassoc]
    cases hb : t ++ [10] ++ p ++ [10] with
    | nil => simp at hb
    | cons x xs =>
      rw [hb] at hrest hhead
      have hx := hhead x (by simp)
      have hx1 : (96 == x) = false := by simpa using fun h => hx.1 h.symm
      have hx2 : (106 == x) = false := by simpa using fun h => hx.2 h.symm
      simp only [List.cons_append] at hrest ⊢
      simp only [removeAll, List.isPrefixOf, beq_self_eq_true, Bool.true_and, hx1, hx2,
        Bool.false_and, Bool.and_false, if_false, Bool.false_eq_true]
      simp only [removeAll, List.isPrefixOf, hx1, Bool.false_and, if_false,
        Bool.false_eq_true] at hrest
      rw [hrest]
      simp [removeAll, List.isPrefixOf]
  unfold stripFences
  rw [h1, fence_eq]
  have hassoc : [96, 96, 96] ++ (t ++ [10] ++ p ++ [10]) ++ [96, 96, 96] =
      96 :: 96 :: 96 :: ((t ++ [10] ++ p ++ [10]) ++ [96, 96, 96]) := by simp
  rw [hassoc]
  simp only [removeAll, List.isPrefixOf, beq_self_eq_true, Bool.true_and, if_true,
    List.length_cons, List.length_nil]
  have := removeAll_append_of_not_mem 96 [96, 96] (t ++ [10] ++ p ++ [10]) [96, 96, 96] hbody
  simp only [Nat.reduceAdd, Nat.add_one_sub_one] at this ⊢
  rw [this, newline_eq]
  simp [removeAll, List.isPrefixOf]

theorem truthy_num (d : Dec) (h : d.isZero = false) : truthy (some (JsValue.num d)) = true := by
  simp [truthy, h]

theorem geocodeStage_ok (text : Str) (v : JsValue) (latitude longitude : Option JsValue)
    (hparse : jsonParse (stripFences text) = some v)
    (hlat : getProp v (lit "latitude") = some latitude)
    (hlon : getProp v (lit "longitude") = some longitude)
    (htlat : truthy latitude = true) (htlon : truthy longitude = true) :
    geocodeStage text = Except.ok (latitude, longitude) := by
  have htry : locationTry (stripFences text) = some v := by
    unfold locationTry
    rw [hparse]
    simp only []
    rw [hlat]
    simp only []
    rw [hlon]
    simp [htlat, htlon]
  unfold geocodeStage
  rw [htry]
  simp only []
  rw [hlat, hlon]

theorem locationTry_eq_none (text : Str)
    (h : ∀ v, jsonParse text = some v →
      hasTruthy v (lit "latitude") = false ∨ hasTruthy v (lit "longitude") = false) :
    locationTry text = none := by
  unfold locationTry
  cases hparse : jsonParse text with
  | none => rfl
  | some v =>
    have hv := h v hparse
    simp only [hasTruthy] at hv
    simp only []
    cases hlat : getProp v (lit "latitude") with
    | none => rfl
    | some latitude =>
      rw [hlat] at hv
      simp only [] at hv ⊢
      cases hlon : getProp v (lit "longitude") with
      | none => simp
      | some longitude =>
        rw [hlon] at hv
        simp only [] at hv
        rcases hv with hv | hv <;> simp [hv]

/-! ## Facts about `split` and `join` -/

theorem splitSpace_ne_nil (s : Str) : splitSpace s ≠ [] := by
  induction s with
  | nil => simp [splitSpace]
  | cons c cs ih =>
    unfold splitSpace
    split
    · simp
    · split <;> simp

theorem splitSpace_append_space (a b : Str) :
    splitSpace (a ++ SPACE :: b) = splitSpace a ++ splitSpace b := by
  induction a with
  | nil => simp [splitSpace]
  | cons c cs ih =>
    have hne := splitSpace_ne_nil cs
    by_cases hc : c = SPACE
    · simp [splitSpace, hc, ih]
    · cases hs : splitSpace cs with
      | nil => exact absurd hs hne
      | cons w ws =>
        rw [hs] at ih
        simp [splitSpace, hc, ih, hs]

theorem splitSpace_of_no_space (w : Str) (h : SPACE ∉ w) : splitSpace w = [w] := by
  induction w with
  | nil => simp [splitSpace]
  | cons c cs ih =>
    simp only [List.mem_cons, not_or] at h
    have hc : c ≠ SPACE := fun e => h.1 e.symm
    simp [splitSpace, hc, ih h.2]

theorem no_space_of_mem_splitSpace (s : Str) : ∀ w ∈ splitSpace s, SPACE ∉ w := by
  induction s with
  | nil => simp [splitSpace]
  | cons c cs ih =>
    have hne := splitSpace_ne_nil cs
    by_cases hc : c = SPACE
    · intro w hw
      simp only [splitSpace, hc, if_true, List.mem_cons] at hw
      rcases hw with rfl | hw
      · simp
      · exact ih w hw
    · cases hs : splitSpace cs with
      | nil => exact absurd hs hne
      | cons v vs =>
        intro w hw
        simp only [splitSpace, hc, if_false, hs, List.mem_cons] at hw
        rw [hs] at ih
        rcases hw with rfl | hw
        · have := ih v (by simp)
          simp only [List.mem_cons, not_or]
          exact ⟨fun e => hc e.symm, this⟩
        · exact ih w (by simp [hw])

theorem joinSpace_append_singleton (l : List Str) (a : Str) :
    joinSpace (l ++ [a]) = (l.map (fun c => c ++ [SPACE])).flatten ++ a := by
  induction l with
  | nil => simp [joinSpace]
  | cons c cs ih =>
    cases cs with
    | nil => simp [joinSpace]
    | cons d ds =>
      have e : (c :: d :: ds) ++ [a] = c :: d :: (ds ++ [a]) := rfl
      have e2 : (d :: ds) ++ [a] = d :: (ds ++ [a]) := rfl
      rw [e, joinSpace, ← e2, ih]
      simp

theorem joinSpace_cons_eq (w : Str) (ws : List Str) :
    joinSpace (w :: ws) = w ++ (ws.map (fun v => SPACE :: v)).flatten := by
  induction ws generalizing w with
  | nil => simp [joinSpace]
  | cons v vs ih => simp [joinSpace, ih v]

/-- Splitting at spaces and joining with spaces gives the string back: the
model of `split` loses nothing. -/
theorem joinSpace_splitSpace (s : Str) : joinSpace (splitSpace s) = s := by
  induction s with
  | nil => simp [splitSpace, joinSpace]
  | cons c cs ih =>
    have hne := splitSpace_ne_nil cs
    cases hs : splitSpace cs with
    | nil => exact absurd hs hne
    | cons v vs =>
      rw [hs] at ih
      by_cases hc : c = SPACE
      · simp only [splitSpace, hc, if_true, hs, joinSpace, List.nil_append]
        rw [ih]
      · simp only [splitSpace, hc, if_false, hs]
        rw [joinSpace_cons_eq] at ih ⊢
        simp [← ih]

theorem tokens_nil : tokens [] = [] := by
  simp [tokens, splitSpace]

theorem tokens_of_no_space (w : Str) (h : SPACE ∉ w) :
    tokens w = [w].filter (fun v => !v.isEmpty) := by
  simp [tokens, splitSpace_of_no_space w h]

theorem tokens_append_space (a w : Str) (h : SPACE ∉ w) :
    tokens (a ++ SPACE :: w) = tokens a ++ [w].filter (fun v => !v.isEmpty) := by
  simp [tokens, splitSpace_append_space, splitSpace_of_no_space w h]

theorem chunkTokens_append_singleton (l : List Str) (a : Str) :
    chunkTokens (l ++ [a]) = chunkTokens l ++ tokens a := by
  simp [chunkTokens]

/-! ## The loop of `splitMessage` -/

theorem splitLoop_nil (n : Int) (st : SplitState) : splitLoop n st [] = st := rfl

theorem splitLoop_cons (n : Int) (st : SplitState) (w : Str) (ws : List Str) :
    splitLoop n st (w :: ws) = splitLoop n (splitStep n st w) ws := rfl

theorem mem_splitFinish (st : SplitState) (c : Str) (h : c ∈ splitFinish st) :
    c ∈ st.chunks ∨ c = st.currentChunk := by
  unfold splitFinish at h
  split at h
  · simpa using h
  · exact Or.inl h

theorem splitLoop_chunkOk (n : Int) (words : List Str) :
    ∀ (ws : List Str) (st : SplitState), (∀ w ∈ ws, w ∈ words) →
      (∀ c ∈ st.chunks, ChunkOk n words c) → ChunkOk n words st.currentChunk →
      (∀ c ∈ (splitLoop n st ws).chunks, ChunkOk n words c) ∧
        ChunkOk n words (splitLoop n st ws).currentChunk := by
  intro ws
  induction ws with
  | nil => intro st _ h1 h2; exact ⟨h1, h2⟩
  | cons w ws ih =>
    intro st hws h1 h2
    rw [splitLoop_cons]
    apply ih
    · intro v hv; exact hws v (by simp [hv])
    · unfold splitStep
      split
      · exact h1
      · intro c hc
        simp only [List.mem_append, List.mem_singleton] at hc
        rcases hc with hc | rfl
        · exact h1 c hc
        · exact h2
    · unfold splitStep
      split
      · rename_i hfit
        left
        simp only [List.length_append]
        split
        · simp only [List.length_singleton]; push_cast; omega
        · rename_i hz
          simp only [List.length_nil]; push_cast; omega
      · show ChunkOk n words w
        by_cases hw : (w.length : Int) ≤ n
        · exact Or.inl hw
        · exact Or.inr ⟨hws w (by simp), by omega⟩

theorem chunkTokens_splitFinish (st : SplitState) :
    chunkTokens (splitFinish st) = chunkTokens st.chunks ++ tokens st.currentChunk := by
  unfold splitFinish
  split
  · exact chunkTokens_append_singleton _ _
  · rename_i h
    have : st.currentChunk = [] := by
      cases hc : st.currentChunk with
      | nil => rfl
      | cons a as => rw [hc] at h; simp at h
    rw [this, tokens_nil]; simp

theorem splitLoop_tokens (n : Int) :
    ∀ (ws : List Str) (st : SplitState), (∀ w ∈ ws, SPACE ∉ w) →
      chunkTokens (splitFinish (splitLoop n st ws)) =
        chunkTokens st.chunks ++ tokens st.currentChunk ++ ws.filter (fun v => !v.isEmpty) := by
  intro ws
  induction ws with
  | nil => intro st _; simp [splitLoop_nil, chunkTokens_splitFinish]
  | cons w ws ih =>
    intro st hws
    have hw : SPACE ∉ w := hws w (by simp)
    rw [splitLoop_cons, ih _ (fun v hv => hws v (by simp [hv]))]
    have hfilter : (w :: ws).filter (fun v => !v.isEmpty) =
        [w].filter (fun v => !v.isEmpty) ++ ws.filter (fun v => !v.isEmpty) := by
      rw [← List.filter_append]; rfl
    rw [hfilter]
    unfold splitStep
    split
    · cases hc : st.currentChunk with
      | nil => simp [tokens_nil, tokens_of_no_space w hw]
      | cons a as =>
        have := tokens_append_space (a :: as) w hw
        simp only [List.length_cons, gt_iff_lt, Nat.zero_lt_succ, if_true, List.append_assoc,
          List.singleton_append]
        rw [this]; simp
    · simp only [chunkTokens_append_singleton, tokens_of_no_space w hw, List.append_assoc]

theorem splitLoop_join (n : Int) :
    ∀ (ws : List Str) (st : SplitState), st.currentChunk ≠ [] → (∀ w ∈ ws, w ≠ []) →
      (splitLoop n st ws).currentChunk ≠ [] ∧
        joinSpace ((splitLoop n st ws).chunks ++ [(splitLoop n st ws).currentChunk]) =
          joinSpace (st.chunks ++ [st.currentChunk]) ++ (ws.map (fun v => SPACE :: v)).flatten := by
  intro ws
  induction ws with
  | nil => intro st h _; simp [splitLoop_nil, h]
  | cons w ws ih =>
    intro st hcur hws
    have hw : w ≠ [] := hws w (by simp)
    have hpos : st.currentChunk.length > 0 := List.length_pos.mpr hcur
    rw [splitLoop_cons]
    have hstep : (splitStep n st w).currentChunk ≠ [] ∧
        joinSpace ((splitStep n st w).chunks ++ [(splitStep n st w).currentChunk]) =
          joinSpace (st.chunks ++ [st.currentChunk]) ++ SPACE :: w := by
      unfold splitStep
      split
      · simp only [hpos, if_true]
        refine ⟨by simp [hcur], ?_⟩
        rw [joinSpace_append_singleton, joinSpace_append_singleton]
        simp
      · refine ⟨hw, ?_⟩
        rw [joinSpace_append_singleton, joinSpace_append_singleton]
        simp
    obtain ⟨h1, h2⟩ := ih (splitStep n st w) hstep.1 (fun v hv => hws v (by simp [hv]))
    refine ⟨h1, ?_⟩
    rw [h2, hstep.2]
    simp

theorem splitLoop_no_empty (n : Int) :
    ∀ (ws : List Str) (st : SplitState), (∀ w ∈ ws, (w.length : Int) < n) →
      [] ∉ st.chunks → [] ∉ (splitLoop n st ws).chunks := by
  intro ws
  induction ws with
  | nil => intro st _ h; exact h
  | cons w ws ih =>
    intro st hws h
    rw [splitLoop_cons]
    apply ih _ (fun v hv => hws v (by simp [hv]))
    have hw := hws w (by simp)
    unfold splitStep
    split
    · exact h
    · rename_i hfit
      simp only [List.mem_append, List.mem_singleton, not_or]
      refine ⟨h, ?_⟩
      intro e
      rw [← e] at hfit
      simp only [List.length_nil] at hfit
      push_cast at hfit
      omega

theorem splitLoop_chunks_extend (n : Int) :
    ∀ (ws : List Str) (st : SplitState),
      ∃ more, (splitLoop n st ws).chunks = st.chunks ++ more := by
  intro ws
  induction ws with
  | nil => intro st; exact ⟨[], by simp [splitLoop_nil]⟩
  | cons w ws ih =>
    intro st
    rw [splitLoop_cons]
    obtain ⟨more, hm⟩ := ih (splitStep n st w)
    unfold splitStep at hm ⊢
    split at hm
    · split
      · exact ⟨more, hm⟩
      · contradiction
    · split
      · contradiction
      · exact ⟨st.currentChunk :: more, by rw [hm]; simp⟩

/-- Once the current chunk is a word that reaches the limit, the next chunk
pushed is exactly that word. -/
theorem splitLoop_long_current (n : Int) :
    ∀ (ws : List Str) (st : SplitState), n ≤ (st.currentChunk.length : Int) →
      st.currentChunk ≠ [] →
      ∃ more, splitFinish (splitLoop n st ws) = st.chunks ++ st.currentChunk :: more := by
  intro ws
  cases ws with
  | nil =>
    intro st _ hne
    refine ⟨[], ?_⟩
    have hpos : st.currentChunk.length > 0 := List.length_pos.mpr hne
    simp [splitLoop_nil, splitFinish, hpos]
  | cons w ws =>
    intro st hlen hne
    rw [splitLoop_cons]
    have hstep : splitStep n st w =
        { chunks := st.chunks ++ [st.currentChunk], currentChunk := w } := by
      unfold splitStep
      rw [if_neg]
      omega
    rw [hstep]
    obtain ⟨more, hm⟩ := splitLoop_chunks_extend n ws
      { chunks := st.chunks ++ [st.currentChunk], currentChunk := w }
    unfold splitFinish
    split
    · exact ⟨more ++ [(splitLoop n
        { chunks := st.chunks ++ [st.currentChunk], currentChunk := w } ws).currentChunk],
        by rw [hm]; simp⟩
    · exact ⟨more, by rw [hm]; simp⟩


/-! ## The follow-up messages of the Q&A handler -/

theorem continuationNotice_length : continuationNotice.length = 21 := by decide

theorem space_notice : lit " " ++ continuationNotice = lit " [... continued below]" := by decide

theorem addNotice_length_le (n i : Nat) (c : Str) :
    (addNotice n i c).length ≤ max c.length 2000 := by
  unfold addNotice
  split
  · split
    · rename_i h
      simp only [List.length_append, continuationNotice_length] at h ⊢
      have : (lit " ").length = 1 := by decide
      omega
    · exact le_max_left _ _
  · exact le_max_left _ _

theorem followUpLoop_ok (platform : Platform) (hplat : ∀ k, platform k = none) (n : Nat) :
    ∀ (rest : List Str) (i : Nat) (calls : List Call),
      followUpLoop platform n rest i calls =
        { calls := calls ++
            (rest.enumFrom i).map (fun ic => Call.followUp (followUpText n ic.1 ic.2)),
          error := none } := by
  intro rest
  induction rest with
  | nil => intro i calls; simp [followUpLoop]
  | cons chunk rest ih =>
    intro i calls
    simp only [followUpLoop, perform, hplat, ih, List.enumFrom_cons, List.map_cons,
      List.append_assoc, List.singleton_append]

theorem filter_isEdit_followUpCalls (chunks : List Str) :
    (followUpCalls chunks).filter Call.isEdit = [] := by
  unfold followUpCalls
  rw [List.filter_eq_nil_iff]
  intro a ha
  simp only [List.mem_map] at ha
  obtain ⟨ic, _, rfl⟩ := ha
  simp [Call.isEdit]

theorem splitMessage_nil : splitMessage [] 1990 = [] := by decide

/-! ## `splitMessage`: the chunks -/

/-- C1: for every message and every integer `maxLength ≥ 0`, every chunk of
`splitMessage(message, maxLength)` has length at most `maxLength`, except a
chunk that is a single space-free token of the message whose own length exceeds
`maxLength`; and `splitMessage("a bb ccc dddd", 10) = ["a bb ccc", "dddd"]`. -/
theorem splitMessage_chunk_length (message : Str) (maxLength : Int) (h : 0 ≤ maxLength) :
    (∀ c ∈ splitMessage message maxLength,
        (c.length : Int) ≤ maxLength ∨
          (c ∈ splitSpace message ∧ SPACE ∉ c ∧ maxLength < (c.length : Int))) ∧
      splitMessage (lit "a bb ccc dddd") 10 = [lit "a bb ccc", lit "dddd"] := by
  refine ⟨?_, by decide⟩
  intro c hc
  have hloop := splitLoop_chunkOk maxLength (splitSpace message) (splitSpace message)
    { chunks := [], currentChunk := [] } (fun w hw => hw) (by simp)
    (Or.inl (by simpa using h))
  have hok : ChunkOk maxLength (splitSpace message) c := by
    rcases mem_splitFinish _ c hc with hc | rfl
    · exact hloop.1 c hc
    · exact hloop.2
  rcases hok with hle | ⟨hmem, hlt⟩
  · exact Or.inl hle
  · exact Or.inr ⟨hmem, no_space_of_mem_splitSpace message c hmem, hlt⟩

/-- Witness of C1 at `splitMessage("a bb ccc dddd", 10)`. -/
theorem splitMessage_chunk_length_witness :
    (0 : Int) ≤ 10 ∧
      ((∀ c ∈ splitMessage (lit "a bb ccc dddd") 10,
          (c.length : Int) ≤ 10 ∨
            (c ∈ splitSpace (lit "a bb ccc dddd") ∧ SPACE ∉ c ∧ (10 : Int) < (c.length : Int))) ∧
        splitMessage (lit "a bb ccc dddd") 10 = [lit "a bb ccc", lit "dddd"]) :=
  ⟨by decide, splitMessage_chunk_length (lit "a bb ccc dddd") 10 (by decide)⟩

/-- C2, as stated, fails: the message `"ab cd "` (a trailing space) with
`maxLength = 5` is split into the single chunk `"ab cd"`, the empty last chunk
being dropped by the final test, and the message `" a"` (a leading space) into
the single chunk `"a"`; joining the chunks does not give the message back. -/
theorem splitMessage_join_counterexample :
    splitMessage (lit "ab cd ") 5 = [lit "ab cd"] ∧
      joinSpace (splitMessage (lit "ab cd ") 5) ≠ lit "ab cd " ∧
      splitMessage (lit " a") 10 = [lit "a"] ∧
      joinSpace (splitMessage (lit " a") 10) ≠ lit " a" := by
  decide

/-- C2, amended: when no space-delimited token of the message is empty (no
leading, trailing or doubled space) and the first token is shorter than
`maxLength`, joining the chunks of `splitMessage(message, maxLength)` with
single spaces gives the message back. -/
theorem splitMessage_join (message : Str) (maxLength : Int)
    (hne : ∀ w ∈ splitSpace message, w ≠ [])
    (hfirst : (((splitSpace message).headD []).length : Int) < maxLength) :
    joinSpace (splitMessage message maxLength) = message := by
  have hjoin := joinSpace_splitSpace message
  cases hs : splitSpace message with
  | nil => exact absurd hs (splitSpace_ne_nil message)
  | cons w ws =>
    rw [hs] at hne hfirst hjoin
    have hw : w ≠ [] := hne w (by simp)
    simp only [List.headD_cons] at hfirst
    have hstep : splitStep maxLength { chunks := [], currentChunk := [] } w =
        { chunks := [], currentChunk := w } := by
      unfold splitStep
      rw [if_pos]
      · simp
      · simp only [List.length_nil]; push_cast; omega
    obtain ⟨h1, h2⟩ := splitLoop_join maxLength ws { chunks := [], currentChunk := w } hw
      (fun v hv => hne v (by simp [hv]))
    have hpos : (splitLoop maxLength { chunks := [], currentChunk := w } ws).currentChunk.length > 0 :=
      List.length_pos.mpr h1
    unfold splitMessage
    rw [hs, splitLoop_cons, hstep]
    unfold splitFinish
    rw [if_pos hpos, h2, ← hjoin, joinSpace_cons_eq]
    simp [joinSpace]

/-- Witness of the amended C2 at `splitMessage("a bb ccc dddd", 10)`. -/
theorem splitMessage_join_witness :
    joinSpace (splitMessage (lit "a bb ccc dddd") 10) = lit "a bb ccc dddd" :=
  splitMessage_join (lit "a bb ccc dddd") 10 (by decide) (by decide)

/-- C3: for every message and `maxLength`, the non-empty space-delimited tokens
of the chunks of `splitMessage(message, maxLength)`, read chunk by chunk in
order, are exactly the non-empty space-delimited tokens of the message, in the
same order. -/
theorem splitMessage_tokens (message : Str) (maxLength : Int) :
    chunkTokens (splitMessage message maxLength) = tokens message := by
  unfold splitMessage
  rw [splitLoop_tokens maxLength (splitSpace message) _ (no_space_of_mem_splitSpace message)]
  simp only [chunkTokens, List.map_nil, List.flatten_nil, tokens_nil, List.nil_append]
  rfl

/-- C10: when the first space-delimited token `t` of the message has
`|t| + 1 > maxLength`, `splitMessage(message, maxLength)` returns the empty
string as its first chunk, and `t` (when not itself empty) is the chunk right
after it; a space-free word `w` of exactly 1990 code units gives
`splitMessage(w, 1990) = ["", w]`; and when every space-delimited token of the
message is shorter than `maxLength`, no returned chunk is empty. -/
theorem splitMessage_empty_first_chunk :
    (∀ (message : Str) (maxLength : Int),
        maxLength < (((splitSpace message).headD []).length : Int) + 1 →
        ∃ rest, splitMessage message maxLength = [] :: rest ∧
          ((splitSpace message).headD [] ≠ [] →
            rest.head? = some ((splitSpace message).headD []))) ∧
      (∀ w : Str, SPACE ∉ w → w.length = 1990 → splitMessage w 1990 = [[], w]) ∧
      (∀ (message : Str) (maxLength : Int),
        (∀ w ∈ splitSpace message, (w.length : Int) < maxLength) →
        [] ∉ splitMessage message maxLength) := by
  refine ⟨?_, ?_, ?_⟩
  · intro message maxLength hlong
    cases hs : splitSpace message with
    | nil => exact absurd hs (splitSpace_ne_nil message)
    | cons t ws =>
      rw [hs] at hlong
      simp only [List.headD_cons] at hlong ⊢
      have hstep : splitStep maxLength { chunks := [], currentChunk := [] } t =
          { chunks := [[]], currentChunk := t } := by
        unfold splitStep
        rw [if_neg]
        · simp
        · simp only [List.length_nil]; push_cast; omega
      obtain ⟨more, hm⟩ := splitLoop_chunks_extend maxLength ws
        { chunks := [[]], currentChunk := t }
      refine ⟨(splitFinish (splitLoop maxLength { chunks := [[]], currentChunk := t } ws)).tail,
        ?_, ?_⟩
      · unfold splitMessage
        rw [hs, splitLoop_cons, hstep]
        unfold splitFinish
        split <;> simp [hm]
      · intro htne
        obtain ⟨more2, hm2⟩ := splitLoop_long_current maxLength ws
          { chunks := [[]], currentChunk := t } (by simp only []; omega) htne
        rw [hm2]
        simp
  · intro w hsp hlen
    have hs := splitSpace_of_no_space w hsp
    have hstep : splitStep 1990 { chunks := [], currentChunk := [] } w =
        { chunks := [[]], currentChunk := w } := by
      unfold splitStep
      rw [if_neg]
      · simp
      · simp only [List.length_nil, hlen]; decide
    unfold splitMessage
    rw [hs, splitLoop_cons, hstep, splitLoop_nil]
    simp [splitFinish, hlen]
  · intro message maxLength hshort hmem
    have hloop := splitLoop_no_empty maxLength (splitSpace message)
      { chunks := [], currentChunk := [] } hshort (by simp)
    rcases mem_splitFinish _ _ hmem with h | h
    · exact hloop h
    · unfold splitMessage splitFinish at hmem
      rw [← h] at hmem
      simp only [List.length_nil, gt_iff_lt, lt_self_iff_false, if_false] at hmem
      exact hloop hmem

/-- Witness of C10: `splitMessage("abc def", 3) = ["", "abc", "def"]`, a word of
1990 letters `a` is returned after an empty chunk, and
`splitMessage("a bb ccc dddd", 10)` has no empty chunk. -/
theorem splitMessage_empty_first_chunk_witness :
    (∃ rest, splitMessage (lit "abc def") 3 = [] :: rest ∧
        ((splitSpace (lit "abc def")).headD [] ≠ [] →
          rest.head? = some ((splitSpace (lit "abc def")).headD []))) ∧
      splitMessage (List.replicate 1990 97) 1990 = [[], List.replicate 1990 97] ∧
      [] ∉ splitMessage (lit "a bb ccc dddd") 10 :=
  ⟨splitMessage_empty_first_chunk.1 (lit "abc def") 3 (by decide),
    splitMessage_empty_first_chunk.2.1 (List.replicate 1990 97)
      (fun h => absurd (List.mem_replicate.mp h).2 (by decide)) (List.length_replicate _ _),
    splitMessage_empty_first_chunk.2.2 (lit "a bb ccc dddd") 10 (by decide)⟩

/-! ## The Q&A handler -/

/-- C4: for every chunk `c`, of any length, at every position `i` of a list of
`chunksLength` chunks, the text passed to `followUp` has length at most 2000;
it is `c + " [... continued below]"` when `c` is not the last chunk and
`|c| + 22 ≤ 2000`; it is `c` unchanged when `c` is the last chunk or the marker
does not fit, provided `|c| ≤ 2000`; and it is the first 1997 code units of `c`
followed by `"..."`, of length exactly 2000, when `|c| > 2000`, the only case in
which the truncation branch is taken. -/
theorem followUpText_spec (chunksLength i : Nat) (c : Str) :
    (followUpText chunksLength i c).length ≤ 2000 ∧
      (((i : Int) < (chunksLength : Int) - 1 ∧ c.length + 22 ≤ 2000) →
        followUpText chunksLength i c = c ++ lit " [... continued below]") ∧
      (¬ ((i : Int) < (chunksLength : Int) - 1 ∧ c.length + 22 ≤ 2000) → c.length ≤ 2000 →
        followUpText chunksLength i c = c) ∧
      (c.length > 2000 →
        followUpText chunksLength i c = c.take 1997 ++ lit "..." ∧
          (followUpText chunksLength i c).length = 2000) ∧
      ((addNotice chunksLength i c).length > 2000 ↔ c.length > 2000) := by
  have hdots : (lit "...").length = 3 := by decide
  have hsp : (lit " ").length = 1 := by decide
  have hfit : ((i : Int) < (chunksLength : Int) - 1 ∧ c.length + 22 ≤ 2000) →
      addNotice chunksLength i c = c ++ lit " [... continued below]" := by
    intro h
    unfold addNotice
    rw [if_pos h.1, if_pos (by rw [continuationNotice_length]; omega), List.append_assoc,
      space_notice]
  have hnofit : ¬ ((i : Int) < (chunksLength : Int) - 1 ∧ c.length + 22 ≤ 2000) →
      addNotice chunksLength i c = c := by
    intro h
    unfold addNotice
    split
    · rename_i h1
      rw [if_neg]
      rw [continuationNotice_length]
      intro h2
      exact h ⟨h1, by omega⟩
    · rfl
  have hlong : c.length > 2000 → addNotice chunksLength i c = c := by
    intro h
    apply hnofit
    intro h2
    omega
  have hmarker : (c ++ lit " [... continued below]").length = c.length + 22 := by
    rw [List.length_append]
    have : (lit " [... continued below]").length = 22 := by decide
    omega
  have hiff : (addNotice chunksLength i c).length > 2000 ↔ c.length > 2000 := by
    constructor
    · intro h
      by_contra hc
      by_cases hf : ((i : Int) < (chunksLength : Int) - 1 ∧ c.length + 22 ≤ 2000)
      · rw [hfit hf, hmarker] at h; omega
      · rw [hnofit hf] at h; exact hc h
    · intro h
      rw [hlong h]; exact h
  refine ⟨?_, ?_, ?_, ?_, hiff⟩
  · unfold followUpText truncateChunk
    split
    · rename_i h
      simp only [List.length_append, List.length_take, hdots]
      omega
    · omega
  · intro h
    unfold followUpText truncateChunk
    rw [hfit h, if_neg (by rw [hmarker]; omega)]
  · intro h hle
    unfold followUpText truncateChunk
    rw [hnofit h, if_neg (by omega)]
  · intro h
    unfold followUpText truncateChunk
    rw [hlong h, if_pos h]
    refine ⟨rfl, ?_⟩
    simp only [List.length_append, List.length_take, hdots]
    omega

/-- C5, as stated, fails: when an awaited platform call inside the `try`
rejects, the `catch` makes a second `editReply`.  Here the prompt is `hi`, the
service answers `hello world`, and the platform rejects the third call (the
`followUp`) with the message `x`: the handler has edited the reply twice. -/
theorem geminiHandler_second_edit_counterexample :
    (geminiHandler (fun k => if k = 2 then some (lit "x") else none) (lit "bob")
        (some (lit "hi")) (Except.ok (lit "hello world"))).calls =
      [Call.deferReply, Call.editReply (lit "bob asked: \"hi\""),
        Call.followUp (lit "hello world"),
        Call.editReply (lit "An error occurred while communicating with Gemini: x")] ∧
    ((geminiHandler (fun k => if k = 2 then some (lit "x") else none) (lit "bob")
        (some (lit "hi")) (Except.ok (lit "hello world"))).calls.filter Call.isEdit).length
      = 2 := by
  decide

/-- C5, amended: for every non-empty prompt and every outcome of the call of the
generative service (text, empty text, or a thrown error), when every awaited
platform call resolves, the Q&A handler performs `deferReply`, then exactly one
`editReply` (the introductory line, the empty-response notice or the error
notice), then one `followUp` per chunk of `splitMessage(responseText, 1990)`
in chunk order (none for an empty text or an error), and ends normally. -/
theorem geminiHandler_calls (platform : Platform) (username prompt : Str)
    (service : Except Str Str) (hplatform : ∀ k, platform k = none) (hprompt : prompt ≠ []) :
    (geminiHandler platform username (some prompt) service).calls =
        Call.deferReply ::
          Call.editReply
            (match service with
              | Except.ok responseText =>
                if responseText.length > 0 then introMessage username prompt
                else lit "Gemini returned an empty response."
              | Except.error e =>
                lit "An error occurred while communicating with Gemini: " ++ e) ::
          followUpCalls (responseChunks service) ∧
      (geminiHandler platform username (some prompt) service).error = none ∧
      ((geminiHandler platform username (some prompt) service).calls.filter Call.isEdit).length
        = 1 ∧
      ((geminiHandler platform username (some prompt) service).calls.filter
        Call.isFollowUp).length = (responseChunks service).length := by
  have hlen : ¬ prompt.length = 0 := by
    intro h; exact hprompt (List.length_eq_zero.mp h)
  have hcalls : (geminiHandler platform username (some prompt) service).calls =
        Call.deferReply ::
          Call.editReply
            (match service with
              | Except.ok responseText =>
                if responseText.length > 0 then introMessage username prompt
                else lit "Gemini returned an empty response."
              | Except.error e =>
                lit "An error occurred while communicating with Gemini: " ++ e) ::
          followUpCalls (responseChunks service) ∧
      (geminiHandler platform username (some prompt) service).error = none := by
    cases service with
    | error e =>
      simp [geminiHandler, hlen, perform, hplatform, geminiTry, responseChunks, followUpCalls]
    | ok responseText =>
      by_cases ht : responseText.length > 0
      · simp [geminiHandler, hlen, perform, hplatform, geminiTry, responseChunks, followUpCalls,
          ht, followUpLoop_ok platform hplatform, List.enum]
      · have he : responseText = [] := by
          cases responseText with
          | nil => rfl
          | cons a as => simp at ht
        subst he
        simp [geminiHandler, hlen, perform, hplatform, geminiTry, responseChunks, followUpCalls,
          splitMessage_nil]
  refine ⟨hcalls.1, hcalls.2, ?_, ?_⟩
  · rw [hcalls.1]
    simp [List.filter_cons, Call.isEdit, filter_isEdit_followUpCalls]
  · rw [hcalls.1]
    simp only [List.filter_cons, Call.isFollowUp, Bool.false_eq_true, if_false]
    unfold followUpCalls
    rw [List.filter_eq_self.mpr]
    · simp
    · intro a ha
      simp only [List.mem_map] at ha
      obtain ⟨ic, _, rfl⟩ := ha
      rfl

/-- Witness of the amended C5: user `bob` asks `hi` and the service answers `hello world`. -/
theorem geminiHandler_calls_witness :
    (∀ k : Nat, (fun _ => none : Platform) k = none) ∧ lit "hi" ≠ [] ∧
      (geminiHandler (fun _ => none) (lit "bob") (some (lit "hi"))
          (Except.ok (lit "hello world"))).calls =
        [Call.deferReply, Call.editReply (lit "bob asked: \"hi\""),
          Call.followUp (lit "hello world")] :=
  ⟨fun _ => rfl, by decide,
    (geminiHandler_calls (fun _ => none) (lit "bob") (lit "hi") (Except.ok (lit "hello world"))
      (fun _ => rfl) (by decide)).1.trans (by decide)⟩

/-! ## `celsiusToFahrenheit` -/

/-- C9, as stated, fails: at the integer `c = 1000000000000003` the quotient
`9c/5 = 1800000000000005.4` is rounded to the binary64 `1800000000000005.5`, the
sum is `1800000000000037.5` and `Math.round` returns `1800000000000038`, while
the integer nearest to `9c/5 + 32 = 1800000000000037.4` is `1800000000000037`. -/
theorem celsiusToFahrenheit_counterexample :
    celsiusToFahrenheit (toDouble ((1000000000000003 : ℤ) : ℚ)) =
        RoundedNumber.int 1800000000000038 ∧
      |((1800000000000037 : ℤ) : ℚ) - (9 * ((1000000000000003 : ℤ) : ℚ) / 5 + 32)| <
        |((1800000000000038 : ℤ) : ℚ) - (9 * ((1000000000000003 : ℤ) : ℚ) / 5 + 32)| := by
  refine ⟨celsiusToFahrenheit_c0, ?_⟩
  have e1 : ((1800000000000037 : ℤ) : ℚ) - (9 * ((1000000000000003 : ℤ) : ℚ) / 5 + 32) =
      -(2 / 5) := by norm_num
  have e2 : ((1800000000000038 : ℤ) : ℚ) - (9 * ((1000000000000003 : ℤ) : ℚ) / 5 + 32) =
      3 / 5 := by norm_num
  rw [e1, e2, abs_neg, abs_of_pos (by norm_num : (0 : ℚ) < 2 / 5),
    abs_of_pos (by norm_num : (0 : ℚ) < 3 / 5)]
  norm_num

/-- C9, amended: for every integer Celsius value `c` with `|c| ≤ 10 ^ 14`,
`celsiusToFahrenheit(c)` is the integer nearest to the exact rational
`9c/5 + 32`: it is less than `1/2` away from it (so there is no tie) and every
other integer is farther; and `celsiusToFahrenheit(0) = 32`,
`celsiusToFahrenheit(100) = 212`, `celsiusToFahrenheit(20) = 68`. -/
theorem celsiusToFahrenheit_nearest (c : ℤ) (hc : |c| ≤ 10 ^ 14) :
    (∃ F : ℤ, celsiusToFahrenheit (toDouble (c : ℚ)) = RoundedNumber.int F ∧
        |(F : ℚ) - (9 * (c : ℚ) / 5 + 32)| < 1 / 2 ∧
        ∀ n : ℤ, n ≠ F → |(F : ℚ) - (9 * (c : ℚ) / 5 + 32)| < |(n : ℚ) - (9 * (c : ℚ) / 5 + 32)|) ∧
      celsiusToFahrenheit (toDouble 0) = RoundedNumber.int 32 ∧
      celsiusToFahrenheit (toDouble 100) = RoundedNumber.int 212 ∧
      celsiusToFahrenheit (toDouble 20) = RoundedNumber.int 68 := by
  refine ⟨⟨(18 * c + 325) / 10, celsiusToFahrenheit_int c hc, ?_⟩, ?_, ?_, ?_⟩
  · have hdiv : (18 * c + 325) = 10 * ((18 * c + 325) / 10) + (18 * c + 325) % 10 :=
      (Int.ediv_add_emod _ _).symm
    have hr1 : 1 ≤ (18 * c + 325) % 10 := by omega
    have hr9 : (18 * c + 325) % 10 ≤ 9 := by omega
    have hq : (18 * (c : ℚ) + 325) =
        10 * (((18 * c + 325) / 10 : ℤ) : ℚ) + (((18 * c + 325) % 10 : ℤ) : ℚ) := by
      exact_mod_cast hdiv
    have h1 : (1 : ℚ) ≤ (((18 * c + 325) % 10 : ℤ) : ℚ) := by exact_mod_cast hr1
    have h9 : (((18 * c + 325) % 10 : ℤ) : ℚ) ≤ 9 := by exact_mod_cast hr9
    have hnear : |(((18 * c + 325) / 10 : ℤ) : ℚ) - (9 * (c : ℚ) / 5 + 32)| < 1 / 2 := by
      rw [abs_lt]; constructor <;> linarith
    refine ⟨hnear, ?_⟩
    intro n hn
    have hdist : (1 : ℚ) ≤ |(n : ℚ) - (((18 * c + 325) / 10 : ℤ) : ℚ)| := by
      have hz : (1 : ℤ) ≤ |n - (18 * c + 325) / 10| := Int.one_le_abs (sub_ne_zero.mpr hn)
      have : ((1 : ℤ) : ℚ) ≤ ((|n - (18 * c + 325) / 10| : ℤ) : ℚ) := by exact_mod_cast hz
      simpa using this
    have htri := abs_sub_le (n : ℚ) (9 * (c : ℚ) / 5 + 32) (((18 * c + 325) / 10 : ℤ) : ℚ)
    rw [abs_sub_comm (9 * (c : ℚ) / 5 + 32) _] at htri
    linarith
  · have := celsiusToFahrenheit_int 0 (by norm_num)
    simpa using this
  · have := celsiusToFahrenheit_int 100 (by norm_num)
    norm_num at this
    exact this
  · have := celsiusToFahrenheit_int 20 (by norm_num)
    norm_num at this
    exact this

/-- Witness of the amended C9 at `c = 20`: the result is an integer less than
`1/2` away from `9 * 20 / 5 + 32`, and it is `68`. -/
theorem celsiusToFahrenheit_nearest_witness :
    |(20 : ℤ)| ≤ 10 ^ 14 ∧
      (∃ F : ℤ, celsiusToFahrenheit (toDouble ((20 : ℤ) : ℚ)) = RoundedNumber.int F ∧
        |(F : ℚ) - (9 * ((20 : ℤ) : ℚ) / 5 + 32)| < 1 / 2) ∧
      celsiusToFahrenheit (toDouble 20) = RoundedNumber.int 68 :=
  ⟨by norm_num,
    (celsiusToFahrenheit_nearest 20 (by norm_num)).1.imp (fun _ h => ⟨h.1, h.2.1⟩),
    (celsiusToFahrenheit_nearest 20 (by norm_num)).2.2.2⟩

/-! ## The weather lookup -/

/-- C6, evaluated at the scenario of the claim: city `Paris`, no state or
country, geocode `(48.8, 2.3)`, `temp` 15, `humidity` 60, `wind_speed` 3.1,
description `clear sky`.  The summary returned has `Â°F` after the temperature
(the two code units U+00C2 U+00B0 of line 231), so it is not the string of the
claim, which has `°F`. -/
theorem getWeatherWithGemini_paris :
    (getWeatherWithGemini (lit "Paris") none none
        (fun _ => Except.ok (lit "\x7b\"latitude\": 48.8, \"longitude\": 2.3\x7d"))
        (fun _ _ => Except.ok (some
          { current := some
              { temp := { mantissa := 15, exp10 := 0 },
                weather := [{ description := lit "clear sky" }],
                humidity := { mantissa := 60, exp10 := 0 },
                wind_speed := { mantissa := 31, exp10 := -1 } } }))).result =
      Except.ok (lit
        "Current weather in Paris:\nTemperature: 59Â°F\nDescription: clear sky\nHumidity: 60%\nWind Speed: 3.1 m/s") ∧
    lit "Current weather in Paris:\nTemperature: 59Â°F\nDescription: clear sky\nHumidity: 60%\nWind Speed: 3.1 m/s" ≠
      lit "Current weather in Paris:\nTemperature: 59°F\nDescription: clear sky\nHumidity: 60%\nWind Speed: 3.1 m/s" := by
  have htemp : Dec.toRat { mantissa := 15, exp10 := 0 } = ((15 : ℤ) : ℚ) := by
    unfold Dec.toRat
    norm_num [Rat.mkRat_eq_div]
  have hF : celsiusToFahrenheit (toDouble (Dec.toRat { mantissa := 15, exp10 := 0 })) =
      RoundedNumber.int 59 := by
    rw [htemp, celsiusToFahrenheit_int 15 (by norm_num)]
    rfl
  have hgeo : geocodeStage (lit "\x7b\"latitude\": 48.8, \"longitude\": 2.3\x7d") =
      Except.ok (some (JsValue.num { mantissa := 488, exp10 := -1 }),
        some (JsValue.num { mantissa := 23, exp10 := -1 })) :=
    geocodeStage_ok _ _ _ _ rfl rfl rfl
      (truthy_num _ (Dec.isZero_eq_false _ (by decide) (by decide)))
      (truthy_num _ (Dec.isZero_eq_false _ (by decide) (by decide)))
  constructor
  · simp only [getWeatherWithGemini, hgeo, formatWeather, hF]
    rfl
  · decide

/-- C7, as stated, fails: the response `{"latitude": "a", "longitude": "b"}`
parses, neither field is numeric, and yet the geocode stage succeeds and the
weather request is made. -/
theorem geocode_nonnumeric_counterexample :
    geocodeStage (lit "\x7b\"latitude\": \"a\", \"longitude\": \"b\"\x7d") =
        Except.ok (some (JsValue.str (lit "a")), some (JsValue.str (lit "b"))) ∧
      isNumber (some (JsValue.str (lit "a"))) = false ∧
      isNumber (some (JsValue.str (lit "b"))) = false ∧
      (getWeatherWithGemini (lit "Paris") none none
          (fun _ => Except.ok (lit "\x7b\"latitude\": \"a\", \"longitude\": \"b\"\x7d"))
          (fun _ _ => Except.ok none)).requests.any Request.isWeather = true := by
  refine ⟨rfl, rfl, rfl, rfl⟩

/-- C7, amended: when the language model answers `responseText`, then
`getWeatherWithGemini` throws "Failed to get weather information: Failed to get
location data from Gemini. Please make sure it has the correct schema", having
made no weather request, whenever the fence-stripped text does not parse as
JSON or the parsed value's `latitude` or `longitude` is missing or falsy; and it
makes the weather request, with those two values, whenever both are present
and truthy (numeric or not). -/
theorem getWeatherWithGemini_geocode (city : Str) (state country : Option Str)
    (gemini : Str → Except Str Str)
    (weather : Option JsValue → Option JsValue → Except Str (Option WeatherDoc))
    (responseText : Str)
    (hresponse : gemini (locationPrompt city state country) = Except.ok responseText) :
    ((∀ v, jsonParse (stripFences responseText) = some v →
          hasTruthy v (lit "latitude") = false ∨ hasTruthy v (lit "longitude") = false) →
        (getWeatherWithGemini city state country gemini weather).requests =
            [Request.generateContent (locationPrompt city state country)] ∧
          (getWeatherWithGemini city state country gemini weather).result =
            Except.error (lit
              "Failed to get weather information: Failed to get location data from Gemini. Please make sure it has the correct schema")) ∧
      (∀ v, jsonParse (stripFences responseText) = some v →
          hasTruthy v (lit "latitude") = true → hasTruthy v (lit "longitude") = true →
        ∃ latitude longitude,
          getProp v (lit "latitude") = some latitude ∧
          getProp v (lit "longitude") = some longitude ∧
          (getWeatherWithGemini city state country gemini weather).requests =
            [Request.generateContent (locationPrompt city state country),
              Request.weatherGet latitude longitude]) := by
  have hmsg : wrapError locationError = lit
      "Failed to get weather information: Failed to get location data from Gemini. Please make sure it has the correct schema" := by
    decide
  constructor
  · intro hbad
    have hstage : geocodeStage responseText = Except.error locationError := by
      unfold geocodeStage
      have htry : locationTry (stripFences responseText) = none :=
        locationTry_eq_none _ hbad
      rw [htry]
    simp only [getWeatherWithGemini, hresponse, hstage, hmsg, and_self]
  · intro v hparse hlat hlon
    simp only [hasTruthy] at hlat hlon
    cases hglat : getProp v (lit "latitude") with
    | none => rw [hglat] at hlat; simp at hlat
    | some latitude =>
      cases hglon : getProp v (lit "longitude") with
      | none => rw [hglon] at hlon; simp at hlon
      | some longitude =>
        rw [hglat] at hlat
        rw [hglon] at hlon
        refine ⟨latitude, longitude, rfl, rfl, ?_⟩
        have hstage : geocodeStage responseText = Except.ok (latitude, longitude) :=
          geocodeStage_ok responseText v latitude longitude hparse hglat hglon hlat hlon
        simp only [getWeatherWithGemini, hresponse, hstage]
        cases weather latitude longitude with
        | error e => rfl
        | ok data =>
          simp only []
          cases formatWeather city state country data <;> rfl

/-- Witness of the amended C7: a response with `latitude` but no `longitude`
fails before any weather request. -/
theorem getWeatherWithGemini_geocode_witness :
    (fun _ => Except.ok (lit "\x7b\"latitude\": 40.7\x7d") : Str → Except Str Str)
        (locationPrompt (lit "Paris") none none) =
        Except.ok (lit "\x7b\"latitude\": 40.7\x7d") ∧
      (getWeatherWithGemini (lit "Paris") none none
          (fun _ => Except.ok (lit "\x7b\"latitude\": 40.7\x7d"))
          (fun _ _ => Except.ok none)).requests =
        [Request.generateContent (locationPrompt (lit "Paris") none none)] ∧
      (getWeatherWithGemini (lit "Paris") none none
          (fun _ => Except.ok (lit "\x7b\"latitude\": 40.7\x7d"))
          (fun _ _ => Except.ok none)).result =
        Except.error (lit
          "Failed to get weather information: Failed to get location data from Gemini. Please make sure it has the correct schema") :=
  ⟨rfl,
    (getWeatherWithGemini_geocode (lit "Paris") none none
      (fun _ => Except.ok (lit "\x7b\"latitude\": 40.7\x7d")) (fun _ _ => Except.ok none)
      (lit "\x7b\"latitude\": 40.7\x7d") rfl).1
      (fun v hv => by
        have hparse : jsonParse (stripFences (lit "\x7b\"latitude\": 40.7\x7d")) =
            some (JsValue.obj [(lit "latitude", JsValue.num { mantissa := 407, exp10 := -1 })]) :=
          rfl
        rw [hparse] at hv
        cases hv
        exact Or.inr rfl)⟩

/-- C8, as stated, fails: with the language tag `js`, the fence stripping of
the fenced payload `{"latitude": 40.7, "longitude": -74.0}` leaves the tag in
front of the payload, which is then not surrounded by whitespace only, and the
geocode stage fails. -/
theorem stripFences_tag_counterexample :
    stripFences (lit "```" ++ lit "js" ++ lit "\n" ++
        lit "\x7b\"latitude\": 40.7, \"longitude\": -74.0\x7d" ++ lit "\n```") =
      lit "js\n\x7b\"latitude\": 40.7, \"longitude\": -74.0\x7d\n" ∧
    ¬ WsWrapped (lit "\x7b\"latitude\": 40.7, \"longitude\": -74.0\x7d")
      (stripFences (lit "```" ++ lit "js" ++ lit "\n" ++
        lit "\x7b\"latitude\": 40.7, \"longitude\": -74.0\x7d" ++ lit "\n```")) ∧
    geocodeStage (lit "```" ++ lit "js" ++ lit "\n" ++
        lit "\x7b\"latitude\": 40.7, \"longitude\": -74.0\x7d" ++ lit "\n```") =
      Except.error locationError := by
  have h : stripFences (lit "```" ++ lit "js" ++ lit "\n" ++
        lit "\x7b\"latitude\": 40.7, \"longitude\": -74.0\x7d" ++ lit "\n```") =
      lit "js\n\x7b\"latitude\": 40.7, \"longitude\": -74.0\x7d\n" := by decide
  refine ⟨h, ?_, rfl⟩
  rw [h]
  rintro ⟨a, b, ha, _, heq⟩
  cases a with
  | nil =>
    have h0 := congrArg List.head? heq
    rw [List.nil_append, List.head?_append_of_ne_nil _ (by decide)] at h0
    revert h0
    decide
  | cons x xs =>
    have h0 := congrArg List.head? heq
    have hx : x = 106 := by
      simp only [List.cons_append, List.head?_cons] at h0
      have h1 : (lit "js\n\x7b\"latitude\": 40.7, \"longitude\": -74.0\x7d\n").head? = some 106 := by
        decide
      rw [h1] at h0
      exact (Option.some.inj h0).symm
    have := ha x (by simp)
    rw [hx] at this
    revert this
    decide

/-- C8, amended: for every payload `p` containing no backtick and a fence tag
`t` that is `json` or consists of whitespace only (the empty tag included), the
fence stripping applied to the fenced `p` leaves `p` surrounded by whitespace
only: `p + "\n"` for the tag `json`, `t + "\n" + p + "\n"` otherwise; and the
fenced `{"latitude": 40.7, "longitude": -74.0}` gives the coordinates
`(40.7, -74.0)` with the tag `json` and with no tag. -/
theorem stripFences_fenced (p t : Str) (hp : 96 ∉ p)
    (ht : t = lit "json" ∨ ∀ c ∈ t, isWs c = true) :
    WsWrapped p (stripFences (lit "```" ++ t ++ lit "\n" ++ p ++ lit "\n```")) ∧
      (t = lit "json" →
        stripFences (lit "```" ++ t ++ lit "\n" ++ p ++ lit "\n```") = p ++ lit "\n") ∧
      ((∀ c ∈ t, isWs c = true) →
        stripFences (lit "```" ++ t ++ lit "\n" ++ p ++ lit "\n```") =
          t ++ lit "\n" ++ p ++ lit "\n") ∧
      (∀ tag : Str, tag = lit "json" ∨ tag = [] →
        ∃ latitude longitude : Dec,
          geocodeStage (lit "```" ++ tag ++ lit "\n" ++
              lit "\x7b\"latitude\": 40.7, \"longitude\": -74.0\x7d" ++ lit "\n```") =
            Except.ok (some (JsValue.num latitude), some (JsValue.num longitude)) ∧
          latitude.toRat = 407 / 10 ∧ longitude.toRat = -74) := by
  have hjson : t = lit "json" →
      stripFences (lit "```" ++ t ++ lit "\n" ++ p ++ lit "\n```") = p ++ lit "\n" := by
    intro h
    subst h
    have e : lit "```" ++ lit "json" ++ lit "\n" = lit "```json\n" := by decide
    rw [e]
    exact stripFences_json p hp
  have hws : (∀ c ∈ t, isWs c = true) →
      stripFences (lit "```" ++ t ++ lit "\n" ++ p ++ lit "\n```") =
        t ++ lit "\n" ++ p ++ lit "\n" := fun h => stripFences_ws_tag t p h hp
  refine ⟨?_, hjson, hws, ?_⟩
  · rcases ht with h | h
    · rw [hjson h]
      exact ⟨[], lit "\n", by simp, by decide, by simp⟩
    · rw [hws h]
      refine ⟨t ++ lit "\n", lit "\n", ?_, by decide, by simp⟩
      intro c hc
      rw [List.mem_append] at hc
      rcases hc with hc | hc
      · exact h c hc
      · revert c; decide
  · intro tag htag
    refine ⟨{ mantissa := 407, exp10 := -1 }, { mantissa := -740, exp10 := -1 }, ?_, ?_, ?_⟩
    · rcases htag with h | h <;> subst h <;>
        exact geocodeStage_ok _ _ _ _ rfl rfl rfl
          (truthy_num _ (Dec.isZero_eq_false _ (by decide) (by decide)))
          (truthy_num _ (Dec.isZero_eq_false _ (by decide) (by decide)))
    · have h1 : (-1 : Int).toNat = 0 := rfl
      have h2 : (-(-1 : Int)).toNat = 1 := rfl
      simp only [Dec.toRat, h1, h2]
      norm_num [Rat.mkRat_eq_div]
    · have h1 : (-1 : Int).toNat = 0 := rfl
      have h2 : (-(-1 : Int)).toNat = 1 := rfl
      simp only [Dec.toRat, h1, h2]
      norm_num [Rat.mkRat_eq_div]

/-- Witness of the amended C8: the payload `{"a": 1}` fenced with the tag
`json`. -/
theorem stripFences_fenced_witness :
    96 ∉ lit "\x7b\"a\": 1\x7d" ∧
      stripFences (lit "```" ++ lit "json" ++ lit "\n" ++ lit "\x7b\"a\": 1\x7d" ++ lit "\n```") =
        lit "\x7b\"a\": 1\x7d" ++ lit "\n" :=
  ⟨by decide,
    (stripFences_fenced (lit "\x7b\"a\": 1\x7d") (lit "json") (by decide) (Or.inl rfl)).2.1 rfl⟩

end GeminiBot
